import Mathlib

/-!
Verification of the rotation engine of an N×N×N Rubik's-cube program.

The cube stores six N×N facelet grids, one per face.  We embed the cube
state as a total function from facelet positions `(face, row, col)` to
colors; the in-place `cycle!` swaps of the source become explicit
single-cell updates (`setc`) threaded through folds that mirror the
source's loops.  A second, bounds-checked embedding (`rotate_face?`)
models the runtime index and underflow checks of the source's `Vec`
accesses and `usize` subtractions, returning `none` where the source
panics.
-/

set_option maxHeartbeats 4000000
set_option maxRecDepth 1000000

inductive Color where
  | White
  | Yellow
  | Red
  | Orange
  | Blue
  | Green
  deriving DecidableEq, Repr, Fintype

inductive Face where
  | Up
  | Left
  | Front
  | Right
  | Back
  | Down
  deriving DecidableEq, Repr, Fintype

inductive Corner where
  | TopLeft
  | TopRight
  | BottomLeft
  | BottomRight
  deriving DecidableEq, Repr, Fintype

inductive Movement where
  | Clockwise
  | CounterClockwise
  | Half
  deriving DecidableEq, Repr, Fintype

structure Side where
  face : Face
  corner : Corner
  deriving DecidableEq, Repr

/-- A facelet position: a face together with a (row, column) pair. -/
abbrev Pos := Face × Nat × Nat

/-- The color assignment of all facelets of a cube. -/
abbrev CubeMap := Pos → Color

structure RubiksCube where
  size : Nat
  state : CubeMap

/-- Constructor `RubiksCube::new`: face index 0 (Up) is Yellow, 1 (Left) Orange,
2 (Front) Blue, 3 (Right) Red, 4 (Back) Green, 5 (Down) White. -/
def RubiksCube.new (size : Nat) : RubiksCube :=
  { size := size
    state := fun p =>
      match p.1 with
      | .Up => .Yellow
      | .Left => .Orange
      | .Front => .Blue
      | .Right => .Red
      | .Back => .Green
      | .Down => .White }

/-- The face order of the `faces` array (`face as usize` in the source). -/
def faceIdx : Face → Nat
  | .Up => 0
  | .Left => 1
  | .Front => 2
  | .Right => 3
  | .Back => 4
  | .Down => 5

/-- Adjacency table `get_sides`: the four neighboring faces of a face, each with the corner
of that neighbor bordering the turning face. -/
def get_sides (face : Face) : List Side :=
  match face with
  | .Up =>
      [⟨.Back, .TopRight⟩, ⟨.Right, .TopRight⟩, ⟨.Front, .TopRight⟩, ⟨.Left, .TopRight⟩]
  | .Left =>
      [⟨.Up, .TopLeft⟩, ⟨.Front, .TopLeft⟩, ⟨.Down, .TopLeft⟩, ⟨.Back, .BottomRight⟩]
  | .Front =>
      [⟨.Up, .BottomLeft⟩, ⟨.Right, .TopLeft⟩, ⟨.Down, .TopRight⟩, ⟨.Left, .BottomRight⟩]
  | .Right =>
      [⟨.Up, .BottomRight⟩, ⟨.Back, .TopLeft⟩, ⟨.Down, .BottomRight⟩, ⟨.Front, .BottomRight⟩]
  | .Back =>
      [⟨.Up, .TopRight⟩, ⟨.Left, .TopLeft⟩, ⟨.Down, .BottomLeft⟩, ⟨.Right, .BottomRight⟩]
  | .Down =>
      [⟨.Front, .BottomLeft⟩, ⟨.Right, .BottomLeft⟩, ⟨.Back, .BottomLeft⟩, ⟨.Left, .BottomLeft⟩]

/-- Entry `j` of the `get_sides` array. -/
def sideAt (face : Face) (j : Nat) : Side :=
  (get_sides face).getD j ⟨.Up, .TopLeft⟩

/-- Coordinate mapping `position_based_off_corner_and_move_count`. -/
def position_based_off_corner_and_move_count
    (corner : Corner) (move_count size depth : Nat) : Nat × Nat :=
  match corner with
  | .TopLeft => (move_count, depth)
  | .TopRight => (depth, size - 1 - move_count)
  | .BottomRight => (size - 1 - move_count, size - 1 - depth)
  | .BottomLeft => (size - 1 - depth, move_count)

/-- Write a single facelet. -/
def setc (g : CubeMap) (p : Pos) (v : Color) : CubeMap :=
  fun q => if q = p then v else g q

/-- The two-argument `cycle!` macro: `temp = a; a = b; b = temp`. -/
def cycle2 (g : CubeMap) (pa pb : Pos) : CubeMap :=
  let temp := g pa
  let g1 := setc g pa (g pb)
  setc g1 pb temp

/-- The four-argument `cycle!` macro:
`temp = a; a = b; b = c; c = d; d = temp`, reading each right-hand side
from the store as it stands at that assignment. -/
def cycle4 (g : CubeMap) (pa pb pc pd : Pos) : CubeMap :=
  let temp := g pa
  let g1 := setc g pa (g pb)
  let g2 := setc g1 pb (g1 pc)
  let g3 := setc g2 pc (g2 pd)
  setc g3 pd temp

/-- The `depth == 0` branch of `rotate_face`: rotate the turning face's own
grid in place by concentric rings (`o` is the ring, `i` sweeps its top
edge positions). -/
def rotate_grid (face : Face) (movement : Movement) (size : Nat) (g : CubeMap) : CubeMap :=
  let s := size - 1
  match movement with
  | .Clockwise =>
      (List.range (size / 2)).foldl (fun g o =>
        (List.range' o (s - o - o)).foldl (fun g i =>
          cycle4 g (face, o, i) (face, s - i, o) (face, s - o, s - i) (face, i, s - o)) g) g
  | .CounterClockwise =>
      (List.range (size / 2)).foldl (fun g o =>
        (List.range' o (s - o - o)).foldl (fun g i =>
          cycle4 g (face, o, i) (face, i, s - o) (face, s - o, s - i) (face, s - i, o)) g) g
  | .Half =>
      (List.range (size / 2)).foldl (fun g o =>
        (List.range' o (s - o - o)).foldl (fun g i =>
          cycle2 (cycle2 g (face, o, i) (face, s - o, s - i)) (face, s - i, o) (face, i, s - o)) g) g

/-- The border permutation of `rotate_face`: for each `move_count` `i`,
compute the four affected cells on the four neighboring faces and cycle
them according to the movement. -/
def rotate_border (face : Face) (movement : Movement) (size depth : Nat) (g : CubeMap) : CubeMap :=
  let sides := get_sides face
  let s0 := sides.getD 0 ⟨.Up, .TopLeft⟩
  let s1 := sides.getD 1 ⟨.Up, .TopLeft⟩
  let s2 := sides.getD 2 ⟨.Up, .TopLeft⟩
  let s3 := sides.getD 3 ⟨.Up, .TopLeft⟩
  match movement with
  | .Clockwise =>
      (List.range size).foldl (fun g i =>
        let p0 := position_based_off_corner_and_move_count s0.corner i size depth
        let p1 := position_based_off_corner_and_move_count s1.corner i size depth
        let p2 := position_based_off_corner_and_move_count s2.corner i size depth
        let p3 := position_based_off_corner_and_move_count s3.corner i size depth
        cycle4 g (s0.face, p0) (s3.face, p3) (s2.face, p2) (s1.face, p1)) g
  | .CounterClockwise =>
      (List.range size).foldl (fun g i =>
        let p0 := position_based_off_corner_and_move_count s0.corner i size depth
        let p1 := position_based_off_corner_and_move_count s1.corner i size depth
        let p2 := position_based_off_corner_and_move_count s2.corner i size depth
        let p3 := position_based_off_corner_and_move_count s3.corner i size depth
        cycle4 g (s0.face, p0) (s1.face, p1) (s2.face, p2) (s3.face, p3)) g
  | .Half =>
      (List.range size).foldl (fun g i =>
        let p0 := position_based_off_corner_and_move_count s0.corner i size depth
        let p1 := position_based_off_corner_and_move_count s1.corner i size depth
        let p2 := position_based_off_corner_and_move_count s2.corner i size depth
        let p3 := position_based_off_corner_and_move_count s3.corner i size depth
        cycle2 (cycle2 g (s0.face, p0) (s2.face, p2)) (s1.face, p1) (s3.face, p3)) g

/-- Rotation `rotate_face`: the face-grid self-rotation runs only at `depth == 0`,
then the border permutation runs at the given depth. -/
def rotate_face (rc : RubiksCube) (face : Face) (movement : Movement) (depth : Nat) :
    RubiksCube :=
  let g := if depth = 0 then rotate_grid face movement rc.size rc.state else rc.state
  { size := rc.size, state := rotate_border face movement rc.size depth g }

/-- Rust's `(a..b).step_by(2)`. -/
def step_by_2 (a b : Nat) : List Nat :=
  (List.range ((b - a + 1) / 2)).map (fun k => a + 2 * k)

/-- The `checkerboard` composite: for Right, Up, Front, half-turn every
odd depth below `(size+1)/2` together with its mirrored depth. -/
def checkerboard (rc : RubiksCube) : RubiksCube :=
  [Face.Right, Face.Up, Face.Front].foldl (fun rc face =>
    (step_by_2 1 ((rc.size + 1) / 2)).foldl (fun rc depth =>
      let rc := rotate_face rc face .Half depth
      if depth ≠ rc.size - depth - 1 then
        rotate_face rc face .Half (rc.size - depth - 1)
      else rc) rc) rc

/-- The cell affected on neighbor `j` of `face` at sweep index `i`. -/
def borderPos (face : Face) (size depth : Nat) (j i : Nat) : Pos :=
  ((sideAt face j).face,
    position_based_off_corner_and_move_count (sideAt face j).corner i size depth)

/-- The four cells of ring `o`, sweep index `i`, of a face grid with
largest index `s`, as they appear in the self-rotation `cycle!` calls. -/
def gridRC (s o i k : Nat) : Nat × Nat :=
  if k = 0 then (o, i)
  else if k = 1 then (s - i, o)
  else if k = 2 then (s - o, s - i)
  else (i, s - o)

/-- The loop bounds of the self-rotation: ring `o` with sweep index `i`. -/
def ringBound (size o i : Nat) : Prop :=
  o < size / 2 ∧ o ≤ i ∧ i < (size - 1) - o

/-- The move sequence of the `random_3x3x3_clockwise_scramble` test. -/
def scramble_moves : List Face :=
  [.Down, .Left, .Up, .Front, .Left, .Up, .Down, .Right, .Down, .Left, .Front, .Back,
   .Left, .Right, .Back, .Up, .Down, .Front, .Up, .Down, .Back, .Left, .Front, .Left,
   .Right, .Left, .Down, .Left, .Front, .Back]

/-- The scramble test: each move applied as a clockwise depth-0 turn to a
solved 3×3×3 cube. -/
def scrambled3 : RubiksCube :=
  scramble_moves.foldl (fun rc m => rotate_face rc m .Clockwise 0) (RubiksCube.new 3)

/-- The literal expected faces of the scramble test, in `faces`-array
order (Up, Left, Front, Right, Back, Down). -/
def expected_faces : List (List (List Color)) :=
  [[[.Green, .White, .Red], [.Yellow, .Yellow, .Red], [.Blue, .Red, .Red]],
   [[.White, .Blue, .Orange], [.Blue, .Orange, .Orange], [.Green, .Green, .Orange]],
   [[.White, .White, .Yellow], [.Yellow, .Blue, .Orange], [.White, .White, .Orange]],
   [[.Blue, .Yellow, .Blue], [.Blue, .Red, .Red], [.Green, .Yellow, .Yellow]],
   [[.White, .Green, .Red], [.Blue, .Green, .White], [.Blue, .Orange, .Yellow]],
   [[.Green, .Orange, .Yellow], [.Red, .White, .Green], [.Red, .Green, .Orange]]]

/-- All in-bounds facelet positions of a cube of the given size. -/
def allPositions (size : Nat) : List Pos :=
  [Face.Up, Face.Left, Face.Front, Face.Right, Face.Back, Face.Down].product
    ((List.range size).product (List.range size))

/-- The multiset of colors over all facelets of all six faces. -/
def cubeColors (rc : RubiksCube) : Multiset Color :=
  (↑(allPositions rc.size) : Multiset Pos).map rc.state

/-! ### The bounds-checked embedding

Rust's `Vec` indexing panics out of bounds and `usize` subtraction
panics on underflow; we model a panic as `none`.  Each read, write and
subtraction of `rotate_face` is checked, in source order. -/

/-- Checked `usize` subtraction. -/
def sub? (a b : Nat) : Option Nat :=
  if b ≤ a then some (a - b) else none

/-- Checked `position_based_off_corner_and_move_count`: each `-` may
underflow, evaluated left to right. -/
def position? (corner : Corner) (move_count size depth : Nat) : Option (Nat × Nat) :=
  match corner with
  | .TopLeft => some (move_count, depth)
  | .TopRight => do
      let a ← sub? size 1
      let b ← sub? a move_count
      some (depth, b)
  | .BottomRight => do
      let a ← sub? size 1
      let r ← sub? a move_count
      let a2 ← sub? size 1
      let c ← sub? a2 depth
      some (r, c)
  | .BottomLeft => do
      let a ← sub? size 1
      let r ← sub? a depth
      some (r, move_count)

/-- Checked facelet read: row and column must be inside the grid. -/
def read? (size : Nat) (g : CubeMap) (p : Pos) : Option Color :=
  if p.2.1 < size ∧ p.2.2 < size then some (g p) else none

/-- Checked facelet write. -/
def write? (size : Nat) (g : CubeMap) (p : Pos) (v : Color) : Option CubeMap :=
  if p.2.1 < size ∧ p.2.2 < size then some (setc g p v) else none

/-- Checked two-argument `cycle!`. -/
def cycle2? (size : Nat) (g : CubeMap) (pa pb : Pos) : Option CubeMap := do
  let temp ← read? size g pa
  let vb ← read? size g pb
  let g ← write? size g pa vb
  write? size g pb temp

/-- Checked four-argument `cycle!`. -/
def cycle4? (size : Nat) (g : CubeMap) (pa pb pc pd : Pos) : Option CubeMap := do
  let temp ← read? size g pa
  let vb ← read? size g pb
  let g ← write? size g pa vb
  let vc ← read? size g pc
  let g ← write? size g pb vc
  let vd ← read? size g pd
  let g ← write? size g pc vd
  write? size g pd temp

/-- Checked self-rotation (`depth == 0` branch), including the
`rc.size - 1` subtraction. -/
def rotate_grid? (face : Face) (movement : Movement) (size : Nat) (g : CubeMap) :
    Option CubeMap := do
  let s ← sub? size 1
  match movement with
  | .Clockwise =>
      (List.range (size / 2)).foldlM (fun g o =>
        (List.range' o (s - o - o)).foldlM (fun g i =>
          cycle4? size g (face, o, i) (face, s - i, o) (face, s - o, s - i) (face, i, s - o)) g) g
  | .CounterClockwise =>
      (List.range (size / 2)).foldlM (fun g o =>
        (List.range' o (s - o - o)).foldlM (fun g i =>
          cycle4? size g (face, o, i) (face, i, s - o) (face, s - o, s - i) (face, s - i, o)) g) g
  | .Half =>
      (List.range (size / 2)).foldlM (fun g o =>
        (List.range' o (s - o - o)).foldlM (fun g i => do
          let g ← cycle2? size g (face, o, i) (face, s - o, s - i)
          cycle2? size g (face, s - i, o) (face, i, s - o)) g) g

/-- Checked border permutation: the four positions are computed first
(as in the source), then the cells are cycled. -/
def rotate_border? (face : Face) (movement : Movement) (size depth : Nat) (g : CubeMap) :
    Option CubeMap :=
  let sides := get_sides face
  let s0 := sides.getD 0 ⟨.Up, .TopLeft⟩
  let s1 := sides.getD 1 ⟨.Up, .TopLeft⟩
  let s2 := sides.getD 2 ⟨.Up, .TopLeft⟩
  let s3 := sides.getD 3 ⟨.Up, .TopLeft⟩
  match movement with
  | .Clockwise =>
      (List.range size).foldlM (fun g i => do
        let p0 ← position? s0.corner i size depth
        let p1 ← position? s1.corner i size depth
        let p2 ← position? s2.corner i size depth
        let p3 ← position? s3.corner i size depth
        cycle4? size g (s0.face, p0) (s3.face, p3) (s2.face, p2) (s1.face, p1)) g
  | .CounterClockwise =>
      (List.range size).foldlM (fun g i => do
        let p0 ← position? s0.corner i size depth
        let p1 ← position? s1.corner i size depth
        let p2 ← position? s2.corner i size depth
        let p3 ← position? s3.corner i size depth
        cycle4? size g (s0.face, p0) (s1.face, p1) (s2.face, p2) (s3.face, p3)) g
  | .Half =>
      (List.range size).foldlM (fun g i => do
        let p0 ← position? s0.corner i size depth
        let p1 ← position? s1.corner i size depth
        let p2 ← position? s2.corner i size depth
        let p3 ← position? s3.corner i size depth
        let g ← cycle2? size g (s0.face, p0) (s2.face, p2)
        cycle2? size g (s1.face, p1) (s3.face, p3)) g

/-- Checked `rotate_face`: `none` exactly when the source panics. -/
def rotate_face? (rc : RubiksCube) (face : Face) (movement : Movement) (depth : Nat) :
    Option RubiksCube := do
  let g ←
    if depth = 0 then rotate_grid? face movement rc.size rc.state
    else some rc.state
  let g ← rotate_border? face movement rc.size depth g
  some { size := rc.size, state := g }

/-! ### Pointwise behavior of the cycle operations -/

theorem setc_apply (g : CubeMap) (p : Pos) (v : Color) (q : Pos) :
    setc g p v q = if q = p then v else g q := rfl

theorem cycle2_fst (g : CubeMap) (pa pb : Pos) : cycle2 g pa pb pa = g pb := by
  by_cases h : pa = pb <;> simp [cycle2, setc, h]

theorem cycle2_snd (g : CubeMap) (pa pb : Pos) : cycle2 g pa pb pb = g pa := by
  simp [cycle2, setc]

theorem cycle2_ne (g : CubeMap) (pa pb q : Pos) (ha : q ≠ pa) (hb : q ≠ pb) :
    cycle2 g pa pb q = g q := by
  simp [cycle2, setc, ha, hb]

theorem cycle4_at_a (g : CubeMap) (pa pb pc pd : Pos)
    (h1 : pa ≠ pb) (h2 : pa ≠ pc) (h3 : pa ≠ pd) :
    cycle4 g pa pb pc pd pa = g pb := by
  simp [cycle4, setc, h1, h2, h3]

theorem cycle4_at_b (g : CubeMap) (pa pb pc pd : Pos)
    (h1 : pb ≠ pc) (h2 : pb ≠ pd) (h3 : pc ≠ pa) :
    cycle4 g pa pb pc pd pb = g pc := by
  rcases eq_or_ne pb pa with h4 | h4
  · subst h4
    simp [cycle4, setc, h1, h2, h3]
  · simp [cycle4, setc, h1, h2, h3, h4]

theorem cycle4_at_c (g : CubeMap) (pa pb pc pd : Pos)
    (h1 : pc ≠ pd) (h2 : pd ≠ pb) (h3 : pd ≠ pa) :
    cycle4 g pa pb pc pd pc = g pd := by
  simp [cycle4, setc, h1, h2, h3]

theorem cycle4_at_d (g : CubeMap) (pa pb pc pd : Pos) :
    cycle4 g pa pb pc pd pd = g pa := by
  simp [cycle4, setc]

theorem cycle4_ne (g : CubeMap) (pa pb pc pd q : Pos)
    (ha : q ≠ pa) (hb : q ≠ pb) (hc : q ≠ pc) (hd : q ≠ pd) :
    cycle4 g pa pb pc pd q = g q := by
  simp [cycle4, setc, ha, hb, hc, hd]

theorem halfpair_at_a (g : CubeMap) (pa pb pc pd : Pos)
    (h1 : pa ≠ pc) (h2 : pa ≠ pd) :
    cycle2 (cycle2 g pa pb) pc pd pa = g pb := by
  rw [cycle2_ne _ _ _ _ h1 h2, cycle2_fst]

theorem halfpair_at_b (g : CubeMap) (pa pb pc pd : Pos)
    (h1 : pb ≠ pc) (h2 : pb ≠ pd) :
    cycle2 (cycle2 g pa pb) pc pd pb = g pa := by
  rw [cycle2_ne _ _ _ _ h1 h2, cycle2_snd]

theorem halfpair_at_c (g : CubeMap) (pa pb pc pd : Pos)
    (h1 : pd ≠ pa) (h2 : pd ≠ pb) :
    cycle2 (cycle2 g pa pb) pc pd pc = g pd := by
  rw [cycle2_fst, cycle2_ne _ _ _ _ h1 h2]

theorem halfpair_at_d (g : CubeMap) (pa pb pc pd : Pos)
    (h1 : pc ≠ pa) (h2 : pc ≠ pb) :
    cycle2 (cycle2 g pa pb) pc pd pd = g pc := by
  rw [cycle2_snd, cycle2_ne _ _ _ _ h1 h2]

theorem halfpair_ne (g : CubeMap) (pa pb pc pd q : Pos)
    (ha : q ≠ pa) (hb : q ≠ pb) (hc : q ≠ pc) (hd : q ≠ pd) :
    cycle2 (cycle2 g pa pb) pc pd q = g q := by
  rw [cycle2_ne _ _ _ _ hc hd, cycle2_ne _ _ _ _ ha hb]

/-! ### Generic fold lemmas

Every loop of the rotation engine is a fold of steps that each write a
few fixed cells.  A cell written by no step is unchanged (`foldl_fix`);
a cell written by exactly one step takes the value that step reads
(`foldl_move`). -/

theorem foldl_fix {ι : Type} (step : CubeMap → ι → CubeMap) (x : Pos) :
    ∀ (L : List ι), (∀ b ∈ L, ∀ g, step g b x = g x) →
      ∀ g, (L.foldl step g) x = g x := by
  intro L
  induction L with
  | nil => intro _ g; rfl
  | cons b L ih =>
      intro h g
      rw [List.foldl_cons, ih (fun a ha g2 => h a (List.mem_cons_of_mem _ ha) g2)]
      exact h b (List.mem_cons_self _ _) g

theorem foldl_move {ι : Type} (step : CubeMap → ι → CubeMap) (x y : Pos) :
    ∀ (L : List ι) (a : ι), L.Nodup → a ∈ L →
      (∀ b ∈ L, b ≠ a → ∀ g, step g b x = g x ∧ step g b y = g y) →
      (∀ g, step g a x = g y) →
      ∀ g, (L.foldl step g) x = g y := by
  intro L
  induction L with
  | nil => intro a _ ha; exact absurd ha (List.not_mem_nil a)
  | cons b L ih =>
      intro a hnd ha hother hstep g
      rw [List.foldl_cons]
      rcases List.mem_cons.mp ha with hab | haL
      · subst hab
        have hnotmem : a ∉ L := (List.nodup_cons.mp hnd).1
        rw [foldl_fix step x L (fun b hb g2 =>
          (hother b (List.mem_cons_of_mem _ hb) (fun hba => hnotmem (hba ▸ hb)) g2).1)]
        exact hstep g
      · have hba : b ≠ a := fun hba => (List.nodup_cons.mp hnd).1 (hba ▸ haL)
        rw [ih a (List.nodup_cons.mp hnd).2 haL
          (fun c hc hca g2 => hother c (List.mem_cons_of_mem _ hc) hca g2) hstep]
        exact (hother b (List.mem_cons_self _ _) hba g).2

/-! ### Position component helpers -/

theorem pos_ne_of_face {f1 f2 : Face} (h : f1 ≠ f2) (r1 c1 r2 c2 : Nat) :
    (f1, r1, c1) ≠ (f2, r2, c2) := by
  intro heq
  exact h (congrArg Prod.fst heq)

theorem pos_ne_of_row {r1 r2 : Nat} (h : r1 ≠ r2) (f1 f2 : Face) (c1 c2 : Nat) :
    (f1, r1, c1) ≠ (f2, r2, c2) := by
  intro heq
  exact h (congrArg (fun p : Pos => p.2.1) heq)

theorem pos_ne_of_col {c1 c2 : Nat} (h : c1 ≠ c2) (f1 f2 : Face) (r1 r2 : Nat) :
    (f1, r1, c1) ≠ (f2, r2, c2) := by
  intro heq
  exact h (congrArg (fun p : Pos => p.2.2) heq)

/-! ### The geometry of the self-rotation rings -/

theorem gridRC_inj {size o i o' i' : Nat} (h : ringBound size o i) (h' : ringBound size o' i')
    {k k' : Nat} (hk : k < 4) (hk' : k' < 4)
    (heq : gridRC (size - 1) o i k = gridRC (size - 1) o' i' k') :
    o = o' ∧ i = i' ∧ k = k' := by
  obtain ⟨h1, h2, h3⟩ := h
  obtain ⟨h1', h2', h3'⟩ := h'
  interval_cases k <;> interval_cases k' <;>
    simp [gridRC, Prod.mk.injEq] at heq ⊢ <;>
    omega

theorem gridPos_ne (face : Face) {size o i o' i' k k' : Nat}
    (hb : ringBound size o i) (hb' : ringBound size o' i')
    (hk : k < 4) (hk' : k' < 4) (hne : ¬(o = o' ∧ i = i' ∧ k = k')) :
    ((face, gridRC (size - 1) o i k) : Pos) ≠ (face, gridRC (size - 1) o' i' k') := by
  intro heq
  exact hne (gridRC_inj hb hb' hk hk' (congrArg Prod.snd heq))

theorem grid_cases (size r c : Nat) (hr : r < size) (hc : c < size) :
    (2 * r = size - 1 ∧ 2 * c = size - 1) ∨
    ∃ o i k, ringBound size o i ∧ k < 4 ∧ (r, c) = gridRC (size - 1) o i k := by
  by_cases hcen : 2 * r = size - 1 ∧ 2 * c = size - 1
  · exact Or.inl hcen
  right
  by_cases hA : r ≤ c ∧ c < (size - 1) - r
  · exact ⟨r, c, 0, by simp only [ringBound]; omega, by omega, by simp [gridRC]⟩
  by_cases hB : c < r ∧ r ≤ (size - 1) - c
  · refine ⟨c, (size - 1) - r, 1, by simp only [ringBound]; omega, by omega, ?_⟩
    simp [gridRC, Prod.mk.injEq]
    omega
  by_cases hC : (size - 1) - r < c ∧ c ≤ r
  · refine ⟨(size - 1) - r, (size - 1) - c, 2, by simp only [ringBound]; omega, by omega, ?_⟩
    simp [gridRC, Prod.mk.injEq]
    omega
  · refine ⟨(size - 1) - c, r, 3, by simp only [ringBound]; omega, by omega, ?_⟩
    simp [gridRC, Prod.mk.injEq]
    omega

/-! ### The nested self-rotation fold -/

theorem nested_fold_move (size : Nat) (step : CubeMap → Nat → Nat → CubeMap)
    (x y : Pos) (o i : Nat) (hb : ringBound size o i)
    (hother : ∀ o' i', ringBound size o' i' → ¬(o' = o ∧ i' = i) →
      ∀ g, step g o' i' x = g x ∧ step g o' i' y = g y)
    (hstep : ∀ g, step g o i x = g y) :
    ∀ g, ((List.range (size / 2)).foldl (fun g o =>
      (List.range' o ((size - 1) - o - o)).foldl (fun g i => step g o i) g) g) x = g y := by
  intro g
  obtain ⟨hb1, hb2, hb3⟩ := hb
  apply foldl_move _ x y _ o (List.nodup_range _) (List.mem_range.mpr hb1)
  · intro o' ho' hne g1
    rw [List.mem_range] at ho'
    constructor
    · apply foldl_fix
      intro i' hi' g2
      rw [List.mem_range'_1] at hi'
      exact (hother o' i' (by simp only [ringBound]; omega) (fun hc => hne hc.1) g2).1
    · apply foldl_fix
      intro i' hi' g2
      rw [List.mem_range'_1] at hi'
      exact (hother o' i' (by simp only [ringBound]; omega) (fun hc => hne hc.1) g2).2
  · intro g1
    apply foldl_move _ x y _ i (List.nodup_range' _ _)
      (List.mem_range'_1.mpr ⟨hb2, by omega⟩)
    · intro i' hi' hne g2
      rw [List.mem_range'_1] at hi'
      exact hother o i' (by simp only [ringBound]; omega) (fun hc => hne hc.2) g2
    · exact hstep

theorem nested_fold_fix (size : Nat) (step : CubeMap → Nat → Nat → CubeMap)
    (x : Pos)
    (hfix : ∀ o i, ringBound size o i → ∀ g, step g o i x = g x) :
    ∀ g, ((List.range (size / 2)).foldl (fun g o =>
      (List.range' o ((size - 1) - o - o)).foldl (fun g i => step g o i) g) g) x = g x := by
  intro g
  apply foldl_fix
  intro o' ho' g1
  rw [List.mem_range] at ho'
  apply foldl_fix
  intro i' hi' g2
  rw [List.mem_range'_1] at hi'
  exact hfix o' i' (by simp only [ringBound]; omega) g2

/-! ### Pointwise behavior of the self-rotation -/

theorem cw_step_ne (face : Face) {size : Nat} (x : Pos) {o i : Nat}
    (hx : ∀ k, k < 4 → x ≠ (face, gridRC (size - 1) o i k)) (g : CubeMap) :
    cycle4 g (face, o, i) (face, (size - 1) - i, o) (face, (size - 1) - o, (size - 1) - i)
      (face, i, (size - 1) - o) x = g x :=
  cycle4_ne _ _ _ _ _ _ (hx 0 (by omega)) (hx 1 (by omega)) (hx 2 (by omega)) (hx 3 (by omega))

theorem ccw_step_ne (face : Face) {size : Nat} (x : Pos) {o i : Nat}
    (hx : ∀ k, k < 4 → x ≠ (face, gridRC (size - 1) o i k)) (g : CubeMap) :
    cycle4 g (face, o, i) (face, i, (size - 1) - o) (face, (size - 1) - o, (size - 1) - i)
      (face, (size - 1) - i, o) x = g x :=
  cycle4_ne _ _ _ _ _ _ (hx 0 (by omega)) (hx 3 (by omega)) (hx 2 (by omega)) (hx 1 (by omega))

theorem half_step_ne (face : Face) {size : Nat} (x : Pos) {o i : Nat}
    (hx : ∀ k, k < 4 → x ≠ (face, gridRC (size - 1) o i k)) (g : CubeMap) :
    cycle2 (cycle2 g (face, o, i) (face, (size - 1) - o, (size - 1) - i))
      (face, (size - 1) - i, o) (face, i, (size - 1) - o) x = g x :=
  halfpair_ne _ _ _ _ _ _ (hx 0 (by omega)) (hx 2 (by omega)) (hx 1 (by omega)) (hx 3 (by omega))

theorem out_ne_grid (face : Face) {size r c : Nat} {f : Face}
    (h : f ≠ face ∨ size ≤ r ∨ size ≤ c)
    {o i : Nat} (hb : ringBound size o i) {k : Nat} (hk : k < 4) :
    ((f, r, c) : Pos) ≠ (face, gridRC (size - 1) o i k) := by
  obtain ⟨h1, h2, h3⟩ := hb
  rcases h with h | h | h
  · exact pos_ne_of_face h _ _ _ _
  · intro heq
    have h4 := congrArg (fun p : Pos => p.2) heq
    simp only at h4
    interval_cases k <;> simp [gridRC, Prod.mk.injEq] at h4 <;> omega
  · intro heq
    have h4 := congrArg (fun p : Pos => p.2) heq
    simp only at h4
    interval_cases k <;> simp [gridRC, Prod.mk.injEq] at h4 <;> omega

theorem center_ne_grid (face : Face) {size r c : Nat}
    (hcr : 2 * r = size - 1) (hcc : 2 * c = size - 1)
    {o i : Nat} (hb : ringBound size o i) {k : Nat} (hk : k < 4) :
    ((face, r, c) : Pos) ≠ (face, gridRC (size - 1) o i k) := by
  obtain ⟨h1, h2, h3⟩ := hb
  intro heq
  have h4 := congrArg (fun p : Pos => p.2) heq
  simp only at h4
  interval_cases k <;> simp [gridRC, Prod.mk.injEq] at h4 <;> omega

theorem rotate_grid_out (face : Face) (m : Movement) (size : Nat) (g : CubeMap)
    (f : Face) (r c : Nat) (h : f ≠ face ∨ size ≤ r ∨ size ≤ c) :
    rotate_grid face m size g (f, r, c) = g (f, r, c) := by
  cases m
  case Clockwise =>
    exact nested_fold_fix size
      (fun g o i => cycle4 g (face, o, i) (face, (size - 1) - i, o)
        (face, (size - 1) - o, (size - 1) - i) (face, i, (size - 1) - o))
      (f, r, c)
      (fun o i hb g2 => cw_step_ne face _ (fun k hk => out_ne_grid face h hb hk) g2) g
  case CounterClockwise =>
    exact nested_fold_fix size
      (fun g o i => cycle4 g (face, o, i) (face, i, (size - 1) - o)
        (face, (size - 1) - o, (size - 1) - i) (face, (size - 1) - i, o))
      (f, r, c)
      (fun o i hb g2 => ccw_step_ne face _ (fun k hk => out_ne_grid face h hb hk) g2) g
  case Half =>
    exact nested_fold_fix size
      (fun g o i => cycle2 (cycle2 g (face, o, i) (face, (size - 1) - o, (size - 1) - i))
        (face, (size - 1) - i, o) (face, i, (size - 1) - o))
      (f, r, c)
      (fun o i hb g2 => half_step_ne face _ (fun k hk => out_ne_grid face h hb hk) g2) g

theorem rotate_grid_cw_in (face : Face) (size : Nat) (g : CubeMap) (r c : Nat)
    (hr : r < size) (hc : c < size) :
    rotate_grid face .Clockwise size g (face, r, c) = g (face, size - 1 - c, r) := by
  rcases grid_cases size r c hr hc with ⟨hcr, hcc⟩ | ⟨o, i, k, hb, hk, hrc⟩
  · have h1 : ((face, size - 1 - c, r) : Pos) = ((face, r, c) : Pos) := by
      simp only [Prod.mk.injEq]
      exact ⟨trivial, by omega, by omega⟩
    rw [h1]
    exact nested_fold_fix size
      (fun g o i => cycle4 g (face, o, i) (face, (size - 1) - i, o)
        (face, (size - 1) - o, (size - 1) - i) (face, i, (size - 1) - o))
      (face, r, c)
      (fun o i hb g2 => cw_step_ne face _ (fun k hk => center_ne_grid face hcr hcc hb hk) g2) g
  · have hx : ((face, r, c) : Pos) = (face, gridRC (size - 1) o i k) :=
      congrArg (fun q => (face, q)) hrc
    have hk1 : (k + 1) % 4 < 4 := by omega
    have hy : ((face, size - 1 - c, r) : Pos) = (face, gridRC (size - 1) o i ((k + 1) % 4)) := by
      obtain ⟨hb1, hb2, hb3⟩ := hb
      interval_cases k <;> simp [gridRC, Prod.mk.injEq] at hrc ⊢ <;> omega
    rw [hx, hy]
    apply nested_fold_move size
      (fun g o i => cycle4 g (face, o, i) (face, (size - 1) - i, o)
        (face, (size - 1) - o, (size - 1) - i) (face, i, (size - 1) - o))
      _ _ o i hb
    · intro o' i' hb' hne g1
      constructor
      · exact cw_step_ne face _ (fun k' hk' =>
          gridPos_ne face hb hb' hk hk' (fun hcon => hne ⟨hcon.1.symm, hcon.2.1.symm⟩)) g1
      · exact cw_step_ne face _ (fun k' hk' =>
          gridPos_ne face hb hb' hk1 hk' (fun hcon => hne ⟨hcon.1.symm, hcon.2.1.symm⟩)) g1
    · intro g1
      interval_cases k
      · exact cycle4_at_a _ _ _ _ _
          (@gridPos_ne face size o i o i 0 1 hb hb (by omega) (by omega) (by omega))
          (@gridPos_ne face size o i o i 0 2 hb hb (by omega) (by omega) (by omega))
          (@gridPos_ne face size o i o i 0 3 hb hb (by omega) (by omega) (by omega))
      · exact cycle4_at_b _ _ _ _ _
          (@gridPos_ne face size o i o i 1 2 hb hb (by omega) (by omega) (by omega))
          (@gridPos_ne face size o i o i 1 3 hb hb (by omega) (by omega) (by omega))
          (@gridPos_ne face size o i o i 2 0 hb hb (by omega) (by omega) (by omega))
      · exact cycle4_at_c _ _ _ _ _
          (@gridPos_ne face size o i o i 2 3 hb hb (by omega) (by omega) (by omega))
          (@gridPos_ne face size o i o i 3 1 hb hb (by omega) (by omega) (by omega))
          (@gridPos_ne face size o i o i 3 0 hb hb (by omega) (by omega) (by omega))
      · exact cycle4_at_d _ _ _ _ _

theorem rotate_grid_ccw_in (face : Face) (size : Nat) (g : CubeMap) (r c : Nat)
    (hr : r < size) (hc : c < size) :
    rotate_grid face .CounterClockwise size g (face, r, c) = g (face, c, size - 1 - r) := by
  rcases grid_cases size r c hr hc with ⟨hcr, hcc⟩ | ⟨o, i, k, hb, hk, hrc⟩
  · have h1 : ((face, c, size - 1 - r) : Pos) = ((face, r, c) : Pos) := by
      simp only [Prod.mk.injEq]
      exact ⟨trivial, by omega, by omega⟩
    rw [h1]
    exact nested_fold_fix size
      (fun g o i => cycle4 g (face, o, i) (face, i, (size - 1) - o)
        (face, (size - 1) - o, (size - 1) - i) (face, (size - 1) - i, o))
      (face, r, c)
      (fun o i hb g2 => ccw_step_ne face _ (fun k hk => center_ne_grid face hcr hcc hb hk) g2) g
  · have hx : ((face, r, c) : Pos) = (face, gridRC (size - 1) o i k) :=
      congrArg (fun q => (face, q)) hrc
    have hk1 : (k + 3) % 4 < 4 := by omega
    have hy : ((face, c, size - 1 - r) : Pos) = (face, gridRC (size - 1) o i ((k + 3) % 4)) := by
      obtain ⟨hb1, hb2, hb3⟩ := hb
      interval_cases k <;> simp [gridRC, Prod.mk.injEq] at hrc ⊢ <;> omega
    rw [hx, hy]
    apply nested_fold_move size
      (fun g o i => cycle4 g (face, o, i) (face, i, (size - 1) - o)
        (face, (size - 1) - o, (size - 1) - i) (face, (size - 1) - i, o))
      _ _ o i hb
    · intro o' i' hb' hne g1
      constructor
      · exact ccw_step_ne face _ (fun k' hk' =>
          gridPos_ne face hb hb' hk hk' (fun hcon => hne ⟨hcon.1.symm, hcon.2.1.symm⟩)) g1
      · exact ccw_step_ne face _ (fun k' hk' =>
          gridPos_ne face hb hb' hk1 hk' (fun hcon => hne ⟨hcon.1.symm, hcon.2.1.symm⟩)) g1
    · intro g1
      interval_cases k
      · exact cycle4_at_a _ _ _ _ _
          (@gridPos_ne face size o i o i 0 3 hb hb (by omega) (by omega) (by omega))
          (@gridPos_ne face size o i o i 0 2 hb hb (by omega) (by omega) (by omega))
          (@gridPos_ne face size o i o i 0 1 hb hb (by omega) (by omega) (by omega))
      · exact cycle4_at_d _ _ _ _ _
      · exact cycle4_at_c _ _ _ _ _
          (@gridPos_ne face size o i o i 2 1 hb hb (by omega) (by omega) (by omega))
          (@gridPos_ne face size o i o i 1 3 hb hb (by omega) (by omega) (by omega))
          (@gridPos_ne face size o i o i 1 0 hb hb (by omega) (by omega) (by omega))
      · exact cycle4_at_b _ _ _ _ _
          (@gridPos_ne face size o i o i 3 2 hb hb (by omega) (by omega) (by omega))
          (@gridPos_ne face size o i o i 3 1 hb hb (by omega) (by omega) (by omega))
          (@gridPos_ne face size o i o i 2 0 hb hb (by omega) (by omega) (by omega))

theorem rotate_grid_half_in (face : Face) (size : Nat) (g : CubeMap) (r c : Nat)
    (hr : r < size) (hc : c < size) :
    rotate_grid face .Half size g (face, r, c) =
      g (face, size - 1 - r, size - 1 - c) := by
  rcases grid_cases size r c hr hc with ⟨hcr, hcc⟩ | ⟨o, i, k, hb, hk, hrc⟩
  · have h1 : ((face, size - 1 - r, size - 1 - c) : Pos) = ((face, r, c) : Pos) := by
      simp only [Prod.mk.injEq]
      exact ⟨trivial, by omega, by omega⟩
    rw [h1]
    exact nested_fold_fix size
      (fun g o i => cycle2 (cycle2 g (face, o, i) (face, (size - 1) - o, (size - 1) - i))
        (face, (size - 1) - i, o) (face, i, (size - 1) - o))
      (face, r, c)
      (fun o i hb g2 => half_step_ne face _ (fun k hk => center_ne_grid face hcr hcc hb hk) g2) g
  · have hx : ((face, r, c) : Pos) = (face, gridRC (size - 1) o i k) :=
      congrArg (fun q => (face, q)) hrc
    have hk1 : (k + 2) % 4 < 4 := by omega
    have hy : ((face, size - 1 - r, size - 1 - c) : Pos) =
        (face, gridRC (size - 1) o i ((k + 2) % 4)) := by
      obtain ⟨hb1, hb2, hb3⟩ := hb
      interval_cases k <;> simp [gridRC, Prod.mk.injEq] at hrc ⊢ <;> omega
    rw [hx, hy]
    apply nested_fold_move size
      (fun g o i => cycle2 (cycle2 g (face, o, i) (face, (size - 1) - o, (size - 1) - i))
        (face, (size - 1) - i, o) (face, i, (size - 1) - o))
      _ _ o i hb
    · intro o' i' hb' hne g1
      constructor
      · exact half_step_ne face _ (fun k' hk' =>
          gridPos_ne face hb hb' hk hk' (fun hcon => hne ⟨hcon.1.symm, hcon.2.1.symm⟩)) g1
      · exact half_step_ne face _ (fun k' hk' =>
          gridPos_ne face hb hb' hk1 hk' (fun hcon => hne ⟨hcon.1.symm, hcon.2.1.symm⟩)) g1
    · intro g1
      interval_cases k
      · exact halfpair_at_a _ _ _ _ _
          (@gridPos_ne face size o i o i 0 1 hb hb (by omega) (by omega) (by omega))
          (@gridPos_ne face size o i o i 0 3 hb hb (by omega) (by omega) (by omega))
      · exact halfpair_at_c _ _ _ _ _
          (@gridPos_ne face size o i o i 3 0 hb hb (by omega) (by omega) (by omega))
          (@gridPos_ne face size o i o i 3 2 hb hb (by omega) (by omega) (by omega))
      · exact halfpair_at_b _ _ _ _ _
          (@gridPos_ne face size o i o i 2 1 hb hb (by omega) (by omega) (by omega))
          (@gridPos_ne face size o i o i 2 3 hb hb (by omega) (by omega) (by omega))
      · exact halfpair_at_d _ _ _ _ _
          (@gridPos_ne face size o i o i 1 0 hb hb (by omega) (by omega) (by omega))
          (@gridPos_ne face size o i o i 1 2 hb hb (by omega) (by omega) (by omega))

/-! ### Facts about the adjacency table -/

theorem side_face_ne (face : Face) (j : Nat) (hj : j < 4) : (sideAt face j).face ≠ face := by
  interval_cases j <;> cases face <;> decide

theorem side_faces_ne (face : Face) (j k : Nat) (hj : j < 4) (hk : k < 4) (hne : j ≠ k) :
    (sideAt face j).face ≠ (sideAt face k).face := by
  interval_cases j <;> interval_cases k <;>
    first
    | exact absurd rfl hne
    | (cases face <;> decide)

theorem face_classify (face f : Face) :
    f = face ∨
    (f = (sideAt face 0).face ∨ f = (sideAt face 1).face ∨
      f = (sideAt face 2).face ∨ f = (sideAt face 3).face) ∨
    (f ≠ face ∧ f ≠ (sideAt face 0).face ∧ f ≠ (sideAt face 1).face ∧
      f ≠ (sideAt face 2).face ∧ f ≠ (sideAt face 3).face) := by
  cases face <;> cases f <;> decide

/-! ### Facts about the border coordinate mapping -/

theorem position_lt (corner : Corner) (i size depth : Nat) (hi : i < size) (hd : depth < size) :
    (position_based_off_corner_and_move_count corner i size depth).1 < size ∧
    (position_based_off_corner_and_move_count corner i size depth).2 < size := by
  cases corner <;> simp [position_based_off_corner_and_move_count] <;> omega

theorem position_inj (corner : Corner) {i i' size depth : Nat} (hi : i < size) (hi' : i' < size)
    (heq : position_based_off_corner_and_move_count corner i size depth =
      position_based_off_corner_and_move_count corner i' size depth) : i = i' := by
  cases corner <;> simp [position_based_off_corner_and_move_count, Prod.mk.injEq] at heq <;> omega

theorem borderPos_ne (face : Face) {size depth : Nat} {j i j' i' : Nat}
    (hj : j < 4) (hj' : j' < 4) (hi : i < size) (hi' : i' < size)
    (hne : ¬(j = j' ∧ i = i')) :
    borderPos face size depth j i ≠ borderPos face size depth j' i' := by
  intro heq
  rcases eq_or_ne j j' with hjj | hjj
  · subst hjj
    have h2 := congrArg Prod.snd heq
    simp only [borderPos] at h2
    exact hne ⟨rfl, position_inj _ hi hi' h2⟩
  · exact side_faces_ne face j j' hj hj' hjj (congrArg Prod.fst heq)

theorem borderPos_slot_ne (face : Face) {size depth : Nat} (j j' i : Nat)
    (hj : j < 4) (hj' : j' < 4) (hne : j ≠ j') (hi : i < size) :
    borderPos face size depth j i ≠ borderPos face size depth j' i :=
  borderPos_ne face hj hj' hi hi (fun hcon => hne hcon.1)

/-! ### Pointwise behavior of the border permutation -/

theorem rotate_border_fix (face : Face) (m : Movement) (size depth : Nat) (g : CubeMap)
    (x : Pos) (hx : ∀ j i, j < 4 → i < size → x ≠ borderPos face size depth j i) :
    rotate_border face m size depth g x = g x := by
  cases m
  case Clockwise =>
    exact foldl_fix
      (fun g i => cycle4 g (borderPos face size depth 0 i) (borderPos face size depth 3 i)
        (borderPos face size depth 2 i) (borderPos face size depth 1 i)) x
      (List.range size)
      (fun b hb g1 => by
        rw [List.mem_range] at hb
        exact cycle4_ne _ _ _ _ _ _ (hx 0 b (by omega) hb) (hx 3 b (by omega) hb)
          (hx 2 b (by omega) hb) (hx 1 b (by omega) hb)) g
  case CounterClockwise =>
    exact foldl_fix
      (fun g i => cycle4 g (borderPos face size depth 0 i) (borderPos face size depth 1 i)
        (borderPos face size depth 2 i) (borderPos face size depth 3 i)) x
      (List.range size)
      (fun b hb g1 => by
        rw [List.mem_range] at hb
        exact cycle4_ne _ _ _ _ _ _ (hx 0 b (by omega) hb) (hx 1 b (by omega) hb)
          (hx 2 b (by omega) hb) (hx 3 b (by omega) hb)) g
  case Half =>
    exact foldl_fix
      (fun g i => cycle2 (cycle2 g (borderPos face size depth 0 i) (borderPos face size depth 2 i))
        (borderPos face size depth 1 i) (borderPos face size depth 3 i)) x
      (List.range size)
      (fun b hb g1 => by
        rw [List.mem_range] at hb
        exact halfpair_ne _ _ _ _ _ _ (hx 0 b (by omega) hb) (hx 2 b (by omega) hb)
          (hx 1 b (by omega) hb) (hx 3 b (by omega) hb)) g

theorem rotate_border_cw_at (face : Face) (size depth : Nat) (g : CubeMap)
    (j i : Nat) (hj : j < 4) (hi : i < size) :
    rotate_border face .Clockwise size depth g (borderPos face size depth j i) =
      g (borderPos face size depth ((j + 3) % 4) i) := by
  have hj3 : (j + 3) % 4 < 4 := by omega
  apply foldl_move
    (fun g i => cycle4 g (borderPos face size depth 0 i) (borderPos face size depth 3 i)
      (borderPos face size depth 2 i) (borderPos face size depth 1 i))
    _ _ _ i (List.nodup_range _) (List.mem_range.mpr hi)
  · intro b hb hne g1
    rw [List.mem_range] at hb
    constructor
    · exact cycle4_ne _ _ _ _ _ _
        (borderPos_ne face hj (by omega) hi hb (fun h => hne h.2.symm))
        (borderPos_ne face hj (by omega) hi hb (fun h => hne h.2.symm))
        (borderPos_ne face hj (by omega) hi hb (fun h => hne h.2.symm))
        (borderPos_ne face hj (by omega) hi hb (fun h => hne h.2.symm))
    · exact cycle4_ne _ _ _ _ _ _
        (borderPos_ne face hj3 (by omega) hi hb (fun h => hne h.2.symm))
        (borderPos_ne face hj3 (by omega) hi hb (fun h => hne h.2.symm))
        (borderPos_ne face hj3 (by omega) hi hb (fun h => hne h.2.symm))
        (borderPos_ne face hj3 (by omega) hi hb (fun h => hne h.2.symm))
  · intro g1
    interval_cases j
    · exact cycle4_at_a _ _ _ _ _
        (borderPos_slot_ne face 0 3 i (by omega) (by omega) (by omega) hi)
        (borderPos_slot_ne face 0 2 i (by omega) (by omega) (by omega) hi)
        (borderPos_slot_ne face 0 1 i (by omega) (by omega) (by omega) hi)
    · exact cycle4_at_d _ _ _ _ _
    · exact cycle4_at_c _ _ _ _ _
        (borderPos_slot_ne face 2 1 i (by omega) (by omega) (by omega) hi)
        (borderPos_slot_ne face 1 3 i (by omega) (by omega) (by omega) hi)
        (borderPos_slot_ne face 1 0 i (by omega) (by omega) (by omega) hi)
    · exact cycle4_at_b _ _ _ _ _
        (borderPos_slot_ne face 3 2 i (by omega) (by omega) (by omega) hi)
        (borderPos_slot_ne face 3 1 i (by omega) (by omega) (by omega) hi)
        (borderPos_slot_ne face 2 0 i (by omega) (by omega) (by omega) hi)

theorem rotate_border_ccw_at (face : Face) (size depth : Nat) (g : CubeMap)
    (j i : Nat) (hj : j < 4) (hi : i < size) :
    rotate_border face .CounterClockwise size depth g (borderPos face size depth j i) =
      g (borderPos face size depth ((j + 1) % 4) i) := by
  have hj1 : (j + 1) % 4 < 4 := by omega
  apply foldl_move
    (fun g i => cycle4 g (borderPos face size depth 0 i) (borderPos face size depth 1 i)
      (borderPos face size depth 2 i) (borderPos face size depth 3 i))
    _ _ _ i (List.nodup_range _) (List.mem_range.mpr hi)
  · intro b hb hne g1
    rw [List.mem_range] at hb
    constructor
    · exact cycle4_ne _ _ _ _ _ _
        (borderPos_ne face hj (by omega) hi hb (fun h => hne h.2.symm))
        (borderPos_ne face hj (by omega) hi hb (fun h => hne h.2.symm))
        (borderPos_ne face hj (by omega) hi hb (fun h => hne h.2.symm))
        (borderPos_ne face hj (by omega) hi hb (fun h => hne h.2.symm))
    · exact cycle4_ne _ _ _ _ _ _
        (borderPos_ne face hj1 (by omega) hi hb (fun h => hne h.2.symm))
        (borderPos_ne face hj1 (by omega) hi hb (fun h => hne h.2.symm))
        (borderPos_ne face hj1 (by omega) hi hb (fun h => hne h.2.symm))
        (borderPos_ne face hj1 (by omega) hi hb (fun h => hne h.2.symm))
  · intro g1
    interval_cases j
    · exact cycle4_at_a _ _ _ _ _
        (borderPos_slot_ne face 0 1 i (by omega) (by omega) (by omega) hi)
        (borderPos_slot_ne face 0 2 i (by omega) (by omega) (by omega) hi)
        (borderPos_slot_ne face 0 3 i (by omega) (by omega) (by omega) hi)
    · exact cycle4_at_b _ _ _ _ _
        (borderPos_slot_ne face 1 2 i (by omega) (by omega) (by omega) hi)
        (borderPos_slot_ne face 1 3 i (by omega) (by omega) (by omega) hi)
        (borderPos_slot_ne face 2 0 i (by omega) (by omega) (by omega) hi)
    · exact cycle4_at_c _ _ _ _ _
        (borderPos_slot_ne face 2 3 i (by omega) (by omega) (by omega) hi)
        (borderPos_slot_ne face 3 1 i (by omega) (by omega) (by omega) hi)
        (borderPos_slot_ne face 3 0 i (by omega) (by omega) (by omega) hi)
    · exact cycle4_at_d _ _ _ _ _

theorem rotate_border_half_at (face : Face) (size depth : Nat) (g : CubeMap)
    (j i : Nat) (hj : j < 4) (hi : i < size) :
    rotate_border face .Half size depth g (borderPos face size depth j i) =
      g (borderPos face size depth ((j + 2) % 4) i) := by
  have hj2 : (j + 2) % 4 < 4 := by omega
  apply foldl_move
    (fun g i => cycle2 (cycle2 g (borderPos face size depth 0 i) (borderPos face size depth 2 i))
      (borderPos face size depth 1 i) (borderPos face size depth 3 i))
    _ _ _ i (List.nodup_range _) (List.mem_range.mpr hi)
  · intro b hb hne g1
    rw [List.mem_range] at hb
    constructor
    · exact halfpair_ne _ _ _ _ _ _
        (borderPos_ne face hj (by omega) hi hb (fun h => hne h.2.symm))
        (borderPos_ne face hj (by omega) hi hb (fun h => hne h.2.symm))
        (borderPos_ne face hj (by omega) hi hb (fun h => hne h.2.symm))
        (borderPos_ne face hj (by omega) hi hb (fun h => hne h.2.symm))
    · exact halfpair_ne _ _ _ _ _ _
        (borderPos_ne face hj2 (by omega) hi hb (fun h => hne h.2.symm))
        (borderPos_ne face hj2 (by omega) hi hb (fun h => hne h.2.symm))
        (borderPos_ne face hj2 (by omega) hi hb (fun h => hne h.2.symm))
        (borderPos_ne face hj2 (by omega) hi hb (fun h => hne h.2.symm))
  · intro g1
    interval_cases j
    · exact halfpair_at_a _ _ _ _ _
        (borderPos_slot_ne face 0 1 i (by omega) (by omega) (by omega) hi)
        (borderPos_slot_ne face 0 3 i (by omega) (by omega) (by omega) hi)
    · exact halfpair_at_c _ _ _ _ _
        (borderPos_slot_ne face 3 0 i (by omega) (by omega) (by omega) hi)
        (borderPos_slot_ne face 3 2 i (by omega) (by omega) (by omega) hi)
    · exact halfpair_at_b _ _ _ _ _
        (borderPos_slot_ne face 2 1 i (by omega) (by omega) (by omega) hi)
        (borderPos_slot_ne face 2 3 i (by omega) (by omega) (by omega) hi)
    · exact halfpair_at_d _ _ _ _ _
        (borderPos_slot_ne face 1 0 i (by omega) (by omega) (by omega) hi)
        (borderPos_slot_ne face 1 2 i (by omega) (by omega) (by omega) hi)

/-! ### Pointwise behavior of a full rotation -/

theorem rotate_face_size (rc : RubiksCube) (face : Face) (m : Movement) (d : Nat) :
    (rotate_face rc face m d).size = rc.size := rfl

theorem rotate_face_state (rc : RubiksCube) (face : Face) (m : Movement) (d : Nat) :
    (rotate_face rc face m d).state = rotate_border face m rc.size d
      (if d = 0 then rotate_grid face m rc.size rc.state else rc.state) := rfl

theorem rotate_face_far (rc : RubiksCube) (face : Face) (m : Movement) (d : Nat)
    (f : Face) (r c : Nat) (hf : f ≠ face) (hs : ∀ j, j < 4 → f ≠ (sideAt face j).face) :
    (rotate_face rc face m d).state (f, r, c) = rc.state (f, r, c) := by
  rw [rotate_face_state,
    rotate_border_fix face m rc.size d _ _ (fun j i hj hi => pos_ne_of_face (hs j hj) _ _ _ _)]
  split
  · exact rotate_grid_out face m rc.size rc.state f r c (Or.inl hf)
  · rfl

theorem rotate_face_own_deep (rc : RubiksCube) (face : Face) (m : Movement) (d : Nat)
    (r c : Nat) (hd0 : d ≠ 0) :
    (rotate_face rc face m d).state (face, r, c) = rc.state (face, r, c) := by
  rw [rotate_face_state,
    rotate_border_fix face m rc.size d _ _
      (fun j i hj hi => pos_ne_of_face (Ne.symm (side_face_ne face j hj)) _ _ _ _),
    if_neg hd0]

theorem rotate_face_own_out (rc : RubiksCube) (face : Face) (m : Movement) (d : Nat)
    (r c : Nat) (hout : rc.size ≤ r ∨ rc.size ≤ c) :
    (rotate_face rc face m d).state (face, r, c) = rc.state (face, r, c) := by
  rw [rotate_face_state,
    rotate_border_fix face m rc.size d _ _
      (fun j i hj hi => pos_ne_of_face (Ne.symm (side_face_ne face j hj)) _ _ _ _)]
  split
  · exact rotate_grid_out face m rc.size rc.state face r c (Or.inr hout)
  · rfl

theorem rotate_face_grid_cw (rc : RubiksCube) (face : Face) (size : Nat)
    (hsz : rc.size = size) (r c : Nat)
    (hr : r < size) (hc : c < size) :
    (rotate_face rc face .Clockwise 0).state (face, r, c) =
      rc.state (face, size - 1 - c, r) := by
  subst hsz
  rw [rotate_face_state,
    rotate_border_fix face _ rc.size 0 _ _
      (fun j i hj hi => pos_ne_of_face (Ne.symm (side_face_ne face j hj)) _ _ _ _),
    if_pos rfl]
  exact rotate_grid_cw_in face rc.size rc.state r c hr hc

theorem rotate_face_grid_ccw (rc : RubiksCube) (face : Face) (size : Nat)
    (hsz : rc.size = size) (r c : Nat)
    (hr : r < size) (hc : c < size) :
    (rotate_face rc face .CounterClockwise 0).state (face, r, c) =
      rc.state (face, c, size - 1 - r) := by
  subst hsz
  rw [rotate_face_state,
    rotate_border_fix face _ rc.size 0 _ _
      (fun j i hj hi => pos_ne_of_face (Ne.symm (side_face_ne face j hj)) _ _ _ _),
    if_pos rfl]
  exact rotate_grid_ccw_in face rc.size rc.state r c hr hc

theorem rotate_face_grid_half (rc : RubiksCube) (face : Face) (size : Nat)
    (hsz : rc.size = size) (r c : Nat)
    (hr : r < size) (hc : c < size) :
    (rotate_face rc face .Half 0).state (face, r, c) =
      rc.state (face, size - 1 - r, size - 1 - c) := by
  subst hsz
  rw [rotate_face_state,
    rotate_border_fix face _ rc.size 0 _ _
      (fun j i hj hi => pos_ne_of_face (Ne.symm (side_face_ne face j hj)) _ _ _ _),
    if_pos rfl]
  exact rotate_grid_half_in face rc.size rc.state r c hr hc

theorem rotate_face_border_cw (rc : RubiksCube) (face : Face) (size : Nat)
    (hsz : rc.size = size) (d : Nat) (j i : Nat)
    (hj : j < 4) (hi : i < size) :
    (rotate_face rc face .Clockwise d).state (borderPos face size d j i) =
      rc.state (borderPos face size d ((j + 3) % 4) i) := by
  subst hsz
  rw [rotate_face_state, rotate_border_cw_at face rc.size d _ j i hj hi]
  split
  · exact rotate_grid_out face _ rc.size rc.state _ _ _
      (Or.inl (side_face_ne face ((j + 3) % 4) (by omega)))
  · rfl

theorem rotate_face_border_ccw (rc : RubiksCube) (face : Face) (size : Nat)
    (hsz : rc.size = size) (d : Nat) (j i : Nat)
    (hj : j < 4) (hi : i < size) :
    (rotate_face rc face .CounterClockwise d).state (borderPos face size d j i) =
      rc.state (borderPos face size d ((j + 1) % 4) i) := by
  subst hsz
  rw [rotate_face_state, rotate_border_ccw_at face rc.size d _ j i hj hi]
  split
  · exact rotate_grid_out face _ rc.size rc.state _ _ _
      (Or.inl (side_face_ne face ((j + 1) % 4) (by omega)))
  · rfl

theorem rotate_face_border_half (rc : RubiksCube) (face : Face) (size : Nat)
    (hsz : rc.size = size) (d : Nat) (j i : Nat)
    (hj : j < 4) (hi : i < size) :
    (rotate_face rc face .Half d).state (borderPos face size d j i) =
      rc.state (borderPos face size d ((j + 2) % 4) i) := by
  subst hsz
  rw [rotate_face_state, rotate_border_half_at face rc.size d _ j i hj hi]
  split
  · exact rotate_grid_out face _ rc.size rc.state _ _ _
      (Or.inl (side_face_ne face ((j + 2) % 4) (by omega)))
  · rfl

theorem rotate_face_off (rc : RubiksCube) (face : Face) (m : Movement) (d : Nat)
    (f : Face) (r c : Nat) (j : Nat) (hj : j < 4) (hf : f = (sideAt face j).face)
    (hoff : ∀ i, i < rc.size → ((r, c) : Nat × Nat) ≠
      position_based_off_corner_and_move_count (sideAt face j).corner i rc.size d) :
    (rotate_face rc face m d).state (f, r, c) = rc.state (f, r, c) := by
  rw [rotate_face_state, rotate_border_fix face m rc.size d _ _ ?hx]
  case hx =>
    intro j' i hj' hi
    rcases eq_or_ne j' j with hjj | hjj
    · subst hjj
      intro heq
      exact hoff i hi (by rw [hf] at heq; exact congrArg Prod.snd heq)
    · apply pos_ne_of_face
      rw [hf]
      exact side_faces_ne face j j' hj hj' (Ne.symm hjj)
  split
  · exact rotate_grid_out face m rc.size rc.state f r c
      (Or.inl (by rw [hf]; exact side_face_ne face j hj))
  · rfl

/-- Eliminator: any facelet position is on the turning face, a border
cell of a neighboring face, an off-border cell of a neighboring face, or
on a face the rotation never touches. -/
theorem state_cases (face : Face) (size depth : Nat) (f : Face) (r c : Nat) (P : Prop)
    (hown : f = face → P)
    (hfar : f ≠ face → (∀ j, j < 4 → f ≠ (sideAt face j).face) → P)
    (hbdr : ∀ j i, j < 4 → i < size →
      ((f, r, c) : Pos) = borderPos face size depth j i → P)
    (hoff : ∀ j, j < 4 → f = (sideAt face j).face →
      (∀ i, i < size → ((r, c) : Nat × Nat) ≠
        position_based_off_corner_and_move_count (sideAt face j).corner i size depth) → P) :
    P := by
  rcases face_classify face f with h | h | h
  · exact hown h
  · have hex : ∃ j, j < 4 ∧ f = (sideAt face j).face := by
      rcases h with h | h | h | h
      exacts [⟨0, by omega, h⟩, ⟨1, by omega, h⟩, ⟨2, by omega, h⟩, ⟨3, by omega, h⟩]
    obtain ⟨j, hj, hf⟩ := hex
    by_cases hon : ∃ i, i < size ∧ ((r, c) : Nat × Nat) =
        position_based_off_corner_and_move_count (sideAt face j).corner i size depth
    · obtain ⟨i, hi, heq⟩ := hon
      refine hbdr j i hj hi ?_
      rw [hf]
      exact congrArg (fun q => ((sideAt face j).face, q)) heq
    · push_neg at hon
      exact hoff j hj hf hon
  · obtain ⟨h0, h1, h2, h3, h4⟩ := h
    refine hfar h0 (fun j hj => ?_)
    interval_cases j <;> assumption

/-! ### Cube equality -/

theorem cube_eq_of {a b : RubiksCube} (h1 : a.size = b.size)
    (h2 : ∀ x, a.state x = b.state x) : a = b := by
  cases a with
  | mk s1 g1 =>
    cases b with
    | mk s2 g2 =>
      obtain rfl : s1 = s2 := h1
      obtain rfl : g1 = g2 := funext h2
      rfl

/-! ### The claims about rotation algebra -/

/-- C1: for every cube state, face and valid depth, a clockwise rotation
followed by a counter-clockwise one at the same depth restores the exact
prior state, and vice versa. -/
theorem claim_C1_rotate_inverse (rc : RubiksCube) (face : Face) (d : Nat) (hd : d < rc.size) :
    rotate_face (rotate_face rc face .Clockwise d) face .CounterClockwise d = rc ∧
    rotate_face (rotate_face rc face .CounterClockwise d) face .Clockwise d = rc := by
  constructor
  · refine cube_eq_of ?_ ?_
    · rfl
    intro x
    obtain ⟨f, r, c⟩ := x
    apply state_cases face rc.size d f r c
    · intro hfa
      rw [hfa]
      by_cases hd0 : d = 0
      · subst hd0
        by_cases hr : r < rc.size
        · by_cases hc : c < rc.size
          · rw [rotate_face_grid_ccw (rotate_face rc face .Clockwise 0) face rc.size rfl
                r c hr hc,
              rotate_face_grid_cw rc face rc.size rfl c (rc.size - 1 - r) hc (by omega)]
            exact congrArg rc.state
              (by simp only [Prod.mk.injEq]; exact ⟨trivial, by omega, trivial⟩)
          · rw [rotate_face_own_out (rotate_face rc face .Clockwise 0) face .CounterClockwise 0
                r c (Or.inr (Nat.le_of_not_lt hc)),
              rotate_face_own_out rc face .Clockwise 0 r c (Or.inr (Nat.le_of_not_lt hc))]
        · rw [rotate_face_own_out (rotate_face rc face .Clockwise 0) face .CounterClockwise 0
              r c (Or.inl (Nat.le_of_not_lt hr)),
            rotate_face_own_out rc face .Clockwise 0 r c (Or.inl (Nat.le_of_not_lt hr))]
      · rw [rotate_face_own_deep (rotate_face rc face .Clockwise d) face .CounterClockwise d
            r c hd0,
          rotate_face_own_deep rc face .Clockwise d r c hd0]
    · intro hf hs
      rw [rotate_face_far (rotate_face rc face .Clockwise d) face .CounterClockwise d
          f r c hf hs,
        rotate_face_far rc face .Clockwise d f r c hf hs]
    · intro j i hj hi heq
      rw [heq,
        rotate_face_border_ccw (rotate_face rc face .Clockwise d) face rc.size rfl d
          j i hj hi,
        rotate_face_border_cw rc face rc.size rfl d ((j + 1) % 4) i (by omega) hi,
        show ((j + 1) % 4 + 3) % 4 = j by omega]
    · intro j hj hf hoff
      rw [rotate_face_off (rotate_face rc face .Clockwise d) face .CounterClockwise d
          f r c j hj hf hoff,
        rotate_face_off rc face .Clockwise d f r c j hj hf hoff]
  · refine cube_eq_of ?_ ?_
    · rfl
    intro x
    obtain ⟨f, r, c⟩ := x
    apply state_cases face rc.size d f r c
    · intro hfa
      rw [hfa]
      by_cases hd0 : d = 0
      · subst hd0
        by_cases hr : r < rc.size
        · by_cases hc : c < rc.size
          · rw [rotate_face_grid_cw (rotate_face rc face .CounterClockwise 0) face rc.size rfl
                r c hr hc,
              rotate_face_grid_ccw rc face rc.size rfl (rc.size - 1 - c) r (by omega) hr]
            exact congrArg rc.state
              (by simp only [Prod.mk.injEq]; exact ⟨trivial, trivial, by omega⟩)
          · rw [rotate_face_own_out (rotate_face rc face .CounterClockwise 0) face .Clockwise 0
                r c (Or.inr (Nat.le_of_not_lt hc)),
              rotate_face_own_out rc face .CounterClockwise 0 r c (Or.inr (Nat.le_of_not_lt hc))]
        · rw [rotate_face_own_out (rotate_face rc face .CounterClockwise 0) face .Clockwise 0
              r c (Or.inl (Nat.le_of_not_lt hr)),
            rotate_face_own_out rc face .CounterClockwise 0 r c (Or.inl (Nat.le_of_not_lt hr))]
      · rw [rotate_face_own_deep (rotate_face rc face .CounterClockwise d) face .Clockwise d
            r c hd0,
          rotate_face_own_deep rc face .CounterClockwise d r c hd0]
    · intro hf hs
      rw [rotate_face_far (rotate_face rc face .CounterClockwise d) face .Clockwise d
          f r c hf hs,
        rotate_face_far rc face .CounterClockwise d f r c hf hs]
    · intro j i hj hi heq
      rw [heq,
        rotate_face_border_cw (rotate_face rc face .CounterClockwise d) face rc.size rfl d
          j i hj hi,
        rotate_face_border_ccw rc face rc.size rfl d ((j + 3) % 4) i (by omega) hi,
        show ((j + 3) % 4 + 1) % 4 = j by omega]
    · intro j hj hf hoff
      rw [rotate_face_off (rotate_face rc face .CounterClockwise d) face .Clockwise d
          f r c j hj hf hoff,
        rotate_face_off rc face .CounterClockwise d f r c j hj hf hoff]

theorem claim_C1_rotate_inverse_witness :
    1 < (RubiksCube.new 3).size ∧
    (rotate_face (rotate_face (RubiksCube.new 3) .Up .Clockwise 1) .Up .CounterClockwise 1 =
        RubiksCube.new 3 ∧
      rotate_face (rotate_face (RubiksCube.new 3) .Up .CounterClockwise 1) .Up .Clockwise 1 =
        RubiksCube.new 3) :=
  ⟨by decide, claim_C1_rotate_inverse (RubiksCube.new 3) .Up 1 (by decide)⟩


/-- C2: four clockwise rotations at the same face and valid depth restore
the exact prior state, and two half-turns restore it as well. -/
theorem claim_C2_rotate_order (rc : RubiksCube) (face : Face) (d : Nat) (hd : d < rc.size) :
    rotate_face (rotate_face (rotate_face (rotate_face rc face .Clockwise d)
        face .Clockwise d) face .Clockwise d) face .Clockwise d = rc ∧
    rotate_face (rotate_face rc face .Half d) face .Half d = rc := by
  constructor
  · refine cube_eq_of ?_ ?_
    · rfl
    intro x
    obtain ⟨f, r, c⟩ := x
    apply state_cases face rc.size d f r c
    · intro hfa
      rw [hfa]
      by_cases hd0 : d = 0
      · subst hd0
        by_cases hr : r < rc.size
        · by_cases hc : c < rc.size
          · rw [rotate_face_grid_cw (rotate_face (rotate_face (rotate_face rc face .Clockwise 0)
                  face .Clockwise 0) face .Clockwise 0) face rc.size rfl r c hr hc,
              rotate_face_grid_cw (rotate_face (rotate_face rc face .Clockwise 0)
                  face .Clockwise 0) face rc.size rfl (rc.size - 1 - c) r (by omega) hr,
              rotate_face_grid_cw (rotate_face rc face .Clockwise 0) face rc.size rfl
                (rc.size - 1 - r) (rc.size - 1 - c) (by omega) (by omega),
              rotate_face_grid_cw rc face rc.size rfl
                (rc.size - 1 - (rc.size - 1 - c)) (rc.size - 1 - r) (by omega) (by omega)]
            exact congrArg rc.state
              (by simp only [Prod.mk.injEq]; exact ⟨by trivial, by omega, by omega⟩)
          · rw [rotate_face_own_out (rotate_face (rotate_face (rotate_face rc face .Clockwise 0)
                  face .Clockwise 0) face .Clockwise 0) face .Clockwise 0 r c
                (Or.inr (Nat.le_of_not_lt hc)),
              rotate_face_own_out (rotate_face (rotate_face rc face .Clockwise 0)
                  face .Clockwise 0) face .Clockwise 0 r c (Or.inr (Nat.le_of_not_lt hc)),
              rotate_face_own_out (rotate_face rc face .Clockwise 0) face .Clockwise 0 r c
                (Or.inr (Nat.le_of_not_lt hc)),
              rotate_face_own_out rc face .Clockwise 0 r c (Or.inr (Nat.le_of_not_lt hc))]
        · rw [rotate_face_own_out (rotate_face (rotate_face (rotate_face rc face .Clockwise 0)
                face .Clockwise 0) face .Clockwise 0) face .Clockwise 0 r c
              (Or.inl (Nat.le_of_not_lt hr)),
            rotate_face_own_out (rotate_face (rotate_face rc face .Clockwise 0)
                face .Clockwise 0) face .Clockwise 0 r c (Or.inl (Nat.le_of_not_lt hr)),
            rotate_face_own_out (rotate_face rc face .Clockwise 0) face .Clockwise 0 r c
              (Or.inl (Nat.le_of_not_lt hr)),
            rotate_face_own_out rc face .Clockwise 0 r c (Or.inl (Nat.le_of_not_lt hr))]
      · rw [rotate_face_own_deep (rotate_face (rotate_face (rotate_face rc face .Clockwise d)
              face .Clockwise d) face .Clockwise d) face .Clockwise d r c hd0,
          rotate_face_own_deep (rotate_face (rotate_face rc face .Clockwise d)
              face .Clockwise d) face .Clockwise d r c hd0,
          rotate_face_own_deep (rotate_face rc face .Clockwise d) face .Clockwise d r c hd0,
          rotate_face_own_deep rc face .Clockwise d r c hd0]
    · intro hf hs
      rw [rotate_face_far (rotate_face (rotate_face (rotate_face rc face .Clockwise d)
            face .Clockwise d) face .Clockwise d) face .Clockwise d f r c hf hs,
        rotate_face_far (rotate_face (rotate_face rc face .Clockwise d)
            face .Clockwise d) face .Clockwise d f r c hf hs,
        rotate_face_far (rotate_face rc face .Clockwise d) face .Clockwise d f r c hf hs,
        rotate_face_far rc face .Clockwise d f r c hf hs]
    · intro j i hj hi heq
      rw [heq,
        rotate_face_border_cw (rotate_face (rotate_face (rotate_face rc face .Clockwise d)
            face .Clockwise d) face .Clockwise d) face rc.size rfl d j i hj hi,
        rotate_face_border_cw (rotate_face (rotate_face rc face .Clockwise d)
            face .Clockwise d) face rc.size rfl d ((j + 3) % 4) i (by omega) hi,
        rotate_face_border_cw (rotate_face rc face .Clockwise d) face rc.size rfl d
          (((j + 3) % 4 + 3) % 4) i (by omega) hi,
        rotate_face_border_cw rc face rc.size rfl d
          ((((j + 3) % 4 + 3) % 4 + 3) % 4) i (by omega) hi,
        show (((((j + 3) % 4 + 3) % 4 + 3) % 4 + 3) % 4) = j by omega]
    · intro j hj hf hoff
      rw [rotate_face_off (rotate_face (rotate_face (rotate_face rc face .Clockwise d)
            face .Clockwise d) face .Clockwise d) face .Clockwise d f r c j hj hf hoff,
        rotate_face_off (rotate_face (rotate_face rc face .Clockwise d)
            face .Clockwise d) face .Clockwise d f r c j hj hf hoff,
        rotate_face_off (rotate_face rc face .Clockwise d) face .Clockwise d f r c j hj hf hoff,
        rotate_face_off rc face .Clockwise d f r c j hj hf hoff]
  · refine cube_eq_of ?_ ?_
    · rfl
    intro x
    obtain ⟨f, r, c⟩ := x
    apply state_cases face rc.size d f r c
    · intro hfa
      rw [hfa]
      by_cases hd0 : d = 0
      · subst hd0
        by_cases hr : r < rc.size
        · by_cases hc : c < rc.size
          · rw [rotate_face_grid_half (rotate_face rc face .Half 0) face rc.size rfl r c hr hc,
              rotate_face_grid_half rc face rc.size rfl
                (rc.size - 1 - r) (rc.size - 1 - c) (by omega) (by omega)]
            exact congrArg rc.state
              (by simp only [Prod.mk.injEq]; exact ⟨by trivial, by omega, by omega⟩)
          · rw [rotate_face_own_out (rotate_face rc face .Half 0) face .Half 0 r c
                (Or.inr (Nat.le_of_not_lt hc)),
              rotate_face_own_out rc face .Half 0 r c (Or.inr (Nat.le_of_not_lt hc))]
        · rw [rotate_face_own_out (rotate_face rc face .Half 0) face .Half 0 r c
              (Or.inl (Nat.le_of_not_lt hr)),
            rotate_face_own_out rc face .Half 0 r c (Or.inl (Nat.le_of_not_lt hr))]
      · rw [rotate_face_own_deep (rotate_face rc face .Half d) face .Half d r c hd0,
          rotate_face_own_deep rc face .Half d r c hd0]
    · intro hf hs
      rw [rotate_face_far (rotate_face rc face .Half d) face .Half d f r c hf hs,
        rotate_face_far rc face .Half d f r c hf hs]
    · intro j i hj hi heq
      rw [heq,
        rotate_face_border_half (rotate_face rc face .Half d) face rc.size rfl d j i hj hi,
        rotate_face_border_half rc face rc.size rfl d ((j + 2) % 4) i (by omega) hi,
        show ((j + 2) % 4 + 2) % 4 = j by omega]
    · intro j hj hf hoff
      rw [rotate_face_off (rotate_face rc face .Half d) face .Half d f r c j hj hf hoff,
        rotate_face_off rc face .Half d f r c j hj hf hoff]

theorem claim_C2_rotate_order_witness :
    1 < (RubiksCube.new 3).size ∧
    (rotate_face (rotate_face (rotate_face (rotate_face (RubiksCube.new 3) .Up .Clockwise 1)
          .Up .Clockwise 1) .Up .Clockwise 1) .Up .Clockwise 1 = RubiksCube.new 3 ∧
      rotate_face (rotate_face (RubiksCube.new 3) .Up .Half 1) .Up .Half 1 = RubiksCube.new 3) :=
  ⟨by decide, claim_C2_rotate_order (RubiksCube.new 3) .Up 1 (by decide)⟩

/-- C10: a half-turn at any face and valid depth equals two clockwise
rotations at the same face and depth. -/
theorem claim_C10_half_eq_double_cw (rc : RubiksCube) (face : Face) (d : Nat)
    (hd : d < rc.size) :
    rotate_face rc face .Half d =
      rotate_face (rotate_face rc face .Clockwise d) face .Clockwise d := by
  refine cube_eq_of ?_ ?_
  · rfl
  intro x
  obtain ⟨f, r, c⟩ := x
  apply state_cases face rc.size d f r c
  · intro hfa
    rw [hfa]
    by_cases hd0 : d = 0
    · subst hd0
      by_cases hr : r < rc.size
      · by_cases hc : c < rc.size
        · rw [rotate_face_grid_half rc face rc.size rfl r c hr hc,
            rotate_face_grid_cw (rotate_face rc face .Clockwise 0) face rc.size rfl r c hr hc,
            rotate_face_grid_cw rc face rc.size rfl (rc.size - 1 - c) r (by omega) hr]
        · rw [rotate_face_own_out rc face .Half 0 r c (Or.inr (Nat.le_of_not_lt hc)),
            rotate_face_own_out (rotate_face rc face .Clockwise 0) face .Clockwise 0 r c
              (Or.inr (Nat.le_of_not_lt hc)),
            rotate_face_own_out rc face .Clockwise 0 r c (Or.inr (Nat.le_of_not_lt hc))]
      · rw [rotate_face_own_out rc face .Half 0 r c (Or.inl (Nat.le_of_not_lt hr)),
          rotate_face_own_out (rotate_face rc face .Clockwise 0) face .Clockwise 0 r c
            (Or.inl (Nat.le_of_not_lt hr)),
          rotate_face_own_out rc face .Clockwise 0 r c (Or.inl (Nat.le_of_not_lt hr))]
    · rw [rotate_face_own_deep rc face .Half d r c hd0,
        rotate_face_own_deep (rotate_face rc face .Clockwise d) face .Clockwise d r c hd0,
        rotate_face_own_deep rc face .Clockwise d r c hd0]
  · intro hf hs
    rw [rotate_face_far rc face .Half d f r c hf hs,
      rotate_face_far (rotate_face rc face .Clockwise d) face .Clockwise d f r c hf hs,
      rotate_face_far rc face .Clockwise d f r c hf hs]
  · intro j i hj hi heq
    rw [heq,
      rotate_face_border_half rc face rc.size rfl d j i hj hi,
      rotate_face_border_cw (rotate_face rc face .Clockwise d) face rc.size rfl d j i hj hi,
      rotate_face_border_cw rc face rc.size rfl d ((j + 3) % 4) i (by omega) hi,
      show ((j + 3) % 4 + 3) % 4 = (j + 2) % 4 by omega]
  · intro j hj hf hoff
    rw [rotate_face_off rc face .Half d f r c j hj hf hoff,
      rotate_face_off (rotate_face rc face .Clockwise d) face .Clockwise d f r c j hj hf hoff,
      rotate_face_off rc face .Clockwise d f r c j hj hf hoff]

theorem claim_C10_half_eq_double_cw_witness :
    1 < (RubiksCube.new 3).size ∧
    rotate_face (RubiksCube.new 3) .Up .Half 1 =
      rotate_face (rotate_face (RubiksCube.new 3) .Up .Clockwise 1) .Up .Clockwise 1 :=
  ⟨by decide, claim_C10_half_eq_double_cw (RubiksCube.new 3) .Up 1 (by decide)⟩

/-- C4: rotating face F at depth D changes no facelet on a face outside
F and its four neighbors, and on a neighboring face changes only the
cells of the border line selected by that neighbor's corner and D. -/
theorem claim_C4_locality (rc : RubiksCube) (face : Face) (m : Movement) (d : Nat)
    (f : Face) (r c : Nat) (_hd : d < rc.size)
    (h : (f ≠ face ∧ ∀ j, j < 4 → f ≠ (sideAt face j).face) ∨
      (∃ j, j < 4 ∧ f = (sideAt face j).face ∧ ∀ i, i < rc.size →
        ((r, c) : Nat × Nat) ≠
          position_based_off_corner_and_move_count (sideAt face j).corner i rc.size d)) :
    (rotate_face rc face m d).state (f, r, c) = rc.state (f, r, c) := by
  rcases h with ⟨hf, hs⟩ | ⟨j, hj, hf, hoff⟩
  · exact rotate_face_far rc face m d f r c hf hs
  · exact rotate_face_off rc face m d f r c j hj hf hoff

theorem claim_C4_locality_witness :
    1 < (RubiksCube.new 3).size ∧
    (rotate_face (RubiksCube.new 3) .Up .Clockwise 1).state (.Down, 0, 0) =
      (RubiksCube.new 3).state (.Down, 0, 0) :=
  ⟨by decide, claim_C4_locality (RubiksCube.new 3) .Up .Clockwise 1 .Down 0 0 (by decide)
    (Or.inl ⟨by decide, fun j hj => by interval_cases j <;> decide⟩)⟩

/-- C5: the clockwise face-grid self-rotation step maps cell (row, col)
to (col, size-1-row): the rotated grid at (col, size-1-row) holds the
old value of (row, col). -/
theorem claim_C5_grid_rotation_map (size : Nat) (g : CubeMap) (face : Face) (r c : Nat)
    (hr : r < size) (hc : c < size) :
    rotate_grid face .Clockwise size g (face, c, size - 1 - r) = g (face, r, c) := by
  rw [rotate_grid_cw_in face size g c (size - 1 - r) hc (by omega)]
  exact congrArg g (by simp only [Prod.mk.injEq]; exact ⟨by trivial, by omega, by trivial⟩)

theorem claim_C5_grid_rotation_map_witness :
    (0 : Nat) < 3 ∧ (1 : Nat) < 3 ∧
    rotate_grid .Up .Clockwise 3 (RubiksCube.new 3).state (.Up, 1, 3 - 1 - 0) =
      (RubiksCube.new 3).state (.Up, 0, 1) :=
  ⟨by decide, by decide,
    claim_C5_grid_rotation_map 3 (RubiksCube.new 3).state .Up 0 1 (by decide) (by decide)⟩

/-- C7: a rotation at a positive valid depth leaves every facelet of the
turning face's own grid unchanged. -/
theorem claim_C7_deep_keeps_face (rc : RubiksCube) (face : Face) (m : Movement) (d : Nat)
    (r c : Nat) (hd0 : 0 < d) (_hd : d < rc.size) :
    (rotate_face rc face m d).state (face, r, c) = rc.state (face, r, c) :=
  rotate_face_own_deep rc face m d r c (by omega)

theorem claim_C7_deep_keeps_face_witness :
    (0 : Nat) < 1 ∧ 1 < (RubiksCube.new 3).size ∧
    (rotate_face (RubiksCube.new 3) .Up .Clockwise 1).state (.Up, 0, 0) =
      (RubiksCube.new 3).state (.Up, 0, 0) :=
  ⟨by decide, by decide,
    claim_C7_deep_keeps_face (RubiksCube.new 3) .Up .Clockwise 1 0 0 (by decide) (by decide)⟩

/-! ### Conservation of the color multiset -/

theorem mem_allPositions (size : Nat) (f : Face) (r c : Nat) :
    ((f, r, c) : Pos) ∈ allPositions size ↔ r < size ∧ c < size := by
  have hf : f ∈ [Face.Up, Face.Left, Face.Front, Face.Right, Face.Back, Face.Down] := by
    cases f <;> decide
  simp [allPositions, List.pair_mem_product, List.mem_range, hf]

theorem nodup_allPositions (size : Nat) : (allPositions size).Nodup := by
  refine List.Nodup.product ?_ ((List.nodup_range size).product (List.nodup_range size))
  decide

theorem quad_decomp (M : Multiset Pos) (hnd : M.Nodup) (p1 p2 p3 p4 : Pos)
    (h1 : p1 ∈ M) (h2 : p2 ∈ M) (h3 : p3 ∈ M) (h4 : p4 ∈ M)
    (d12 : p1 ≠ p2) (d13 : p1 ≠ p3) (d14 : p1 ≠ p4)
    (d23 : p2 ≠ p3) (d24 : p2 ≠ p4) (d34 : p3 ≠ p4) :
    ∃ M4, M = p1 ::ₘ p2 ::ₘ p3 ::ₘ p4 ::ₘ M4 ∧
      p1 ∉ M4 ∧ p2 ∉ M4 ∧ p3 ∉ M4 ∧ p4 ∉ M4 := by
  have hnd1 : (M.erase p1).Nodup := hnd.erase _
  have hnd2 : ((M.erase p1).erase p2).Nodup := hnd1.erase _
  have hnd3 : (((M.erase p1).erase p2).erase p3).Nodup := hnd2.erase _
  have h2' : p2 ∈ M.erase p1 := (hnd.mem_erase_iff).mpr ⟨Ne.symm d12, h2⟩
  have h3' : p3 ∈ (M.erase p1).erase p2 :=
    (hnd1.mem_erase_iff).mpr ⟨Ne.symm d23, (hnd.mem_erase_iff).mpr ⟨Ne.symm d13, h3⟩⟩
  have h4' : p4 ∈ ((M.erase p1).erase p2).erase p3 :=
    (hnd2.mem_erase_iff).mpr ⟨Ne.symm d34,
      (hnd1.mem_erase_iff).mpr ⟨Ne.symm d24, (hnd.mem_erase_iff).mpr ⟨Ne.symm d14, h4⟩⟩⟩
  have e1 := (Multiset.cons_erase h1).symm
  have e2 := (Multiset.cons_erase h2').symm
  have e3 := (Multiset.cons_erase h3').symm
  have e4 := (Multiset.cons_erase h4').symm
  refine ⟨(((M.erase p1).erase p2).erase p3).erase p4,
    e1.trans (congrArg (p1 ::ₘ ·) (e2.trans (congrArg (p2 ::ₘ ·)
      (e3.trans (congrArg (p3 ::ₘ ·) e4))))), ?_, ?_, ?_, ?_⟩
  · intro hx
    exact ((hnd.mem_erase_iff).mp (Multiset.mem_of_mem_erase
      (Multiset.mem_of_mem_erase (Multiset.mem_of_mem_erase hx)))).1 rfl
  · intro hx
    exact ((hnd1.mem_erase_iff).mp (Multiset.mem_of_mem_erase
      (Multiset.mem_of_mem_erase hx))).1 rfl
  · intro hx
    exact ((hnd2.mem_erase_iff).mp (Multiset.mem_of_mem_erase hx)).1 rfl
  · intro hx
    exact ((hnd3.mem_erase_iff).mp hx).1 rfl

theorem map_cycle4_eq (M : Multiset Pos) (hnd : M.Nodup) (p1 p2 p3 p4 : Pos)
    (h1 : p1 ∈ M) (h2 : p2 ∈ M) (h3 : p3 ∈ M) (h4 : p4 ∈ M)
    (d12 : p1 ≠ p2) (d13 : p1 ≠ p3) (d14 : p1 ≠ p4)
    (d23 : p2 ≠ p3) (d24 : p2 ≠ p4) (d34 : p3 ≠ p4) (g : CubeMap) :
    M.map (cycle4 g p1 p2 p3 p4) = M.map g := by
  obtain ⟨M4, hMeq, n1, n2, n3, n4⟩ :=
    quad_decomp M hnd p1 p2 p3 p4 h1 h2 h3 h4 d12 d13 d14 d23 d24 d34
  subst hMeq
  simp only [Multiset.map_cons]
  rw [cycle4_at_a _ _ _ _ _ d12 d13 d14,
    cycle4_at_b _ _ _ _ _ d23 d24 (Ne.symm d13),
    cycle4_at_c _ _ _ _ _ d34 (Ne.symm d24) (Ne.symm d14),
    cycle4_at_d]
  have hM4 : M4.map (cycle4 g p1 p2 p3 p4) = M4.map g :=
    Multiset.map_congr rfl (fun x hx => cycle4_ne g p1 p2 p3 p4 x
      (fun h => n1 (h ▸ hx)) (fun h => n2 (h ▸ hx))
      (fun h => n3 (h ▸ hx)) (fun h => n4 (h ▸ hx)))
  rw [hM4, Multiset.cons_swap (g p4) (g p1), Multiset.cons_swap (g p3) (g p1),
    Multiset.cons_swap (g p2) (g p1)]

theorem map_halfpair_eq (M : Multiset Pos) (hnd : M.Nodup) (p1 p2 p3 p4 : Pos)
    (h1 : p1 ∈ M) (h2 : p2 ∈ M) (h3 : p3 ∈ M) (h4 : p4 ∈ M)
    (d12 : p1 ≠ p2) (d13 : p1 ≠ p3) (d14 : p1 ≠ p4)
    (d23 : p2 ≠ p3) (d24 : p2 ≠ p4) (d34 : p3 ≠ p4) (g : CubeMap) :
    M.map (cycle2 (cycle2 g p1 p2) p3 p4) = M.map g := by
  obtain ⟨M4, hMeq, n1, n2, n3, n4⟩ :=
    quad_decomp M hnd p1 p2 p3 p4 h1 h2 h3 h4 d12 d13 d14 d23 d24 d34
  subst hMeq
  simp only [Multiset.map_cons]
  rw [halfpair_at_a _ _ _ _ _ d13 d14,
    halfpair_at_b _ _ _ _ _ d23 d24,
    halfpair_at_c _ _ _ _ _ (Ne.symm d14) (Ne.symm d24),
    halfpair_at_d _ _ _ _ _ (Ne.symm d13) (Ne.symm d23)]
  have hM4 : M4.map (cycle2 (cycle2 g p1 p2) p3 p4) = M4.map g :=
    Multiset.map_congr rfl (fun x hx => halfpair_ne g p1 p2 p3 p4 x
      (fun h => n1 (h ▸ hx)) (fun h => n2 (h ▸ hx))
      (fun h => n3 (h ▸ hx)) (fun h => n4 (h ▸ hx)))
  rw [hM4, Multiset.cons_swap (g p2) (g p1), Multiset.cons_swap (g p4) (g p3)]

theorem foldl_map_fix {ι : Type} (M : Multiset Pos) (step : CubeMap → ι → CubeMap) :
    ∀ (L : List ι), (∀ b ∈ L, ∀ g, M.map (step g b) = M.map g) →
      ∀ g, M.map (L.foldl step g) = M.map g := by
  intro L
  induction L with
  | nil => intro _ g; rfl
  | cons b L ih =>
      intro h g
      rw [List.foldl_cons, ih (fun a ha g2 => h a (List.mem_cons_of_mem _ ha) g2)]
      exact h b (List.mem_cons_self _ _) g

/-- C3: for every cube, face, movement and valid depth, the multiset of
colors over all facelets of all six faces is unchanged by a rotation. -/
theorem claim_C3_color_conservation (rc : RubiksCube) (face : Face) (m : Movement) (d : Nat)
    (hd : d < rc.size) :
    cubeColors (rotate_face rc face m d) = cubeColors rc := by
  have hnd : ((allPositions rc.size : List Pos) : Multiset Pos).Nodup :=
    Multiset.coe_nodup.mpr (nodup_allPositions rc.size)
  have hbmem : ∀ j i, j < 4 → i < rc.size →
      borderPos face rc.size d j i ∈ ((allPositions rc.size : List Pos) : Multiset Pos) := by
    intro j i hj hi
    exact Multiset.mem_coe.mpr ((mem_allPositions rc.size _ _ _).mpr
      ⟨(position_lt _ i rc.size d hi hd).1, (position_lt _ i rc.size d hi hd).2⟩)
  have hborder : ∀ g, Multiset.map (rotate_border face m rc.size d g)
      ↑(allPositions rc.size) = Multiset.map g ↑(allPositions rc.size) := by
    cases m
    case Clockwise =>
      intro g
      exact foldl_map_fix _ (fun g i => cycle4 g (borderPos face rc.size d 0 i)
          (borderPos face rc.size d 3 i) (borderPos face rc.size d 2 i)
          (borderPos face rc.size d 1 i)) (List.range rc.size)
        (fun b hb g1 => by
          rw [List.mem_range] at hb
          exact map_cycle4_eq _ hnd _ _ _ _
            (hbmem 0 b (by omega) hb) (hbmem 3 b (by omega) hb)
            (hbmem 2 b (by omega) hb) (hbmem 1 b (by omega) hb)
            (borderPos_slot_ne face 0 3 b (by omega) (by omega) (by omega) hb)
            (borderPos_slot_ne face 0 2 b (by omega) (by omega) (by omega) hb)
            (borderPos_slot_ne face 0 1 b (by omega) (by omega) (by omega) hb)
            (borderPos_slot_ne face 3 2 b (by omega) (by omega) (by omega) hb)
            (borderPos_slot_ne face 3 1 b (by omega) (by omega) (by omega) hb)
            (borderPos_slot_ne face 2 1 b (by omega) (by omega) (by omega) hb) g1) g
    case CounterClockwise =>
      intro g
      exact foldl_map_fix _ (fun g i => cycle4 g (borderPos face rc.size d 0 i)
          (borderPos face rc.size d 1 i) (borderPos face rc.size d 2 i)
          (borderPos face rc.size d 3 i)) (List.range rc.size)
        (fun b hb g1 => by
          rw [List.mem_range] at hb
          exact map_cycle4_eq _ hnd _ _ _ _
            (hbmem 0 b (by omega) hb) (hbmem 1 b (by omega) hb)
            (hbmem 2 b (by omega) hb) (hbmem 3 b (by omega) hb)
            (borderPos_slot_ne face 0 1 b (by omega) (by omega) (by omega) hb)
            (borderPos_slot_ne face 0 2 b (by omega) (by omega) (by omega) hb)
            (borderPos_slot_ne face 0 3 b (by omega) (by omega) (by omega) hb)
            (borderPos_slot_ne face 1 2 b (by omega) (by omega) (by omega) hb)
            (borderPos_slot_ne face 1 3 b (by omega) (by omega) (by omega) hb)
            (borderPos_slot_ne face 2 3 b (by omega) (by omega) (by omega) hb) g1) g
    case Half =>
      intro g
      exact foldl_map_fix _ (fun g i => cycle2 (cycle2 g (borderPos face rc.size d 0 i)
          (borderPos face rc.size d 2 i)) (borderPos face rc.size d 1 i)
          (borderPos face rc.size d 3 i)) (List.range rc.size)
        (fun b hb g1 => by
          rw [List.mem_range] at hb
          exact map_halfpair_eq _ hnd _ _ _ _
            (hbmem 0 b (by omega) hb) (hbmem 2 b (by omega) hb)
            (hbmem 1 b (by omega) hb) (hbmem 3 b (by omega) hb)
            (borderPos_slot_ne face 0 2 b (by omega) (by omega) (by omega) hb)
            (borderPos_slot_ne face 0 1 b (by omega) (by omega) (by omega) hb)
            (borderPos_slot_ne face 0 3 b (by omega) (by omega) (by omega) hb)
            (borderPos_slot_ne face 2 1 b (by omega) (by omega) (by omega) hb)
            (borderPos_slot_ne face 2 3 b (by omega) (by omega) (by omega) hb)
            (borderPos_slot_ne face 1 3 b (by omega) (by omega) (by omega) hb) g1) g
  have hgrid : ∀ g, Multiset.map (rotate_grid face m rc.size g)
      ↑(allPositions rc.size) = Multiset.map g ↑(allPositions rc.size) := by
    cases m
    case Clockwise =>
      intro g
      exact foldl_map_fix _ (fun g o => (List.range' o ((rc.size - 1) - o - o)).foldl
          (fun g i => cycle4 g (face, o, i) (face, (rc.size - 1) - i, o)
            (face, (rc.size - 1) - o, (rc.size - 1) - i) (face, i, (rc.size - 1) - o)) g)
        (List.range (rc.size / 2))
        (fun o ho g1 => by
          rw [List.mem_range] at ho
          exact foldl_map_fix _ (fun g i => cycle4 g (face, o, i) (face, (rc.size - 1) - i, o)
              (face, (rc.size - 1) - o, (rc.size - 1) - i) (face, i, (rc.size - 1) - o))
            (List.range' o ((rc.size - 1) - o - o))
            (fun i hi g2 => by
              rw [List.mem_range'_1] at hi
              have hbnd : ringBound rc.size o i := by simp only [ringBound]; omega
              exact map_cycle4_eq _ hnd _ _ _ _
                (Multiset.mem_coe.mpr ((mem_allPositions rc.size face o i).mpr
                  ⟨by omega, by omega⟩))
                (Multiset.mem_coe.mpr ((mem_allPositions rc.size face ((rc.size - 1) - i) o).mpr
                  ⟨by omega, by omega⟩))
                (Multiset.mem_coe.mpr ((mem_allPositions rc.size face ((rc.size - 1) - o)
                  ((rc.size - 1) - i)).mpr ⟨by omega, by omega⟩))
                (Multiset.mem_coe.mpr ((mem_allPositions rc.size face i ((rc.size - 1) - o)).mpr
                  ⟨by omega, by omega⟩))
                (@gridPos_ne face rc.size o i o i 0 1 hbnd hbnd (by omega) (by omega) (by omega))
                (@gridPos_ne face rc.size o i o i 0 2 hbnd hbnd (by omega) (by omega) (by omega))
                (@gridPos_ne face rc.size o i o i 0 3 hbnd hbnd (by omega) (by omega) (by omega))
                (@gridPos_ne face rc.size o i o i 1 2 hbnd hbnd (by omega) (by omega) (by omega))
                (@gridPos_ne face rc.size o i o i 1 3 hbnd hbnd (by omega) (by omega) (by omega))
                (@gridPos_ne face rc.size o i o i 2 3 hbnd hbnd (by omega) (by omega) (by omega))
                g2) g1) g
    case CounterClockwise =>
      intro g
      exact foldl_map_fix _ (fun g o => (List.range' o ((rc.size - 1) - o - o)).foldl
          (fun g i => cycle4 g (face, o, i) (face, i, (rc.size - 1) - o)
            (face, (rc.size - 1) - o, (rc.size - 1) - i) (face, (rc.size - 1) - i, o)) g)
        (List.range (rc.size / 2))
        (fun o ho g1 => by
          rw [List.mem_range] at ho
          exact foldl_map_fix _ (fun g i => cycle4 g (face, o, i) (face, i, (rc.size - 1) - o)
              (face, (rc.size - 1) - o, (rc.size - 1) - i) (face, (rc.size - 1) - i, o))
            (List.range' o ((rc.size - 1) - o - o))
            (fun i hi g2 => by
              rw [List.mem_range'_1] at hi
              have hbnd : ringBound rc.size o i := by simp only [ringBound]; omega
              exact map_cycle4_eq _ hnd _ _ _ _
                (Multiset.mem_coe.mpr ((mem_allPositions rc.size face o i).mpr
                  ⟨by omega, by omega⟩))
                (Multiset.mem_coe.mpr ((mem_allPositions rc.size face i ((rc.size - 1) - o)).mpr
                  ⟨by omega, by omega⟩))
                (Multiset.mem_coe.mpr ((mem_allPositions rc.size face ((rc.size - 1) - o)
                  ((rc.size - 1) - i)).mpr ⟨by omega, by omega⟩))
                (Multiset.mem_coe.mpr ((mem_allPositions rc.size face ((rc.size - 1) - i) o).mpr
                  ⟨by omega, by omega⟩))
                (@gridPos_ne face rc.size o i o i 0 3 hbnd hbnd (by omega) (by omega) (by omega))
                (@gridPos_ne face rc.size o i o i 0 2 hbnd hbnd (by omega) (by omega) (by omega))
                (@gridPos_ne face rc.size o i o i 0 1 hbnd hbnd (by omega) (by omega) (by omega))
                (@gridPos_ne face rc.size o i o i 3 2 hbnd hbnd (by omega) (by omega) (by omega))
                (@gridPos_ne face rc.size o i o i 3 1 hbnd hbnd (by omega) (by omega) (by omega))
                (@gridPos_ne face rc.size o i o i 2 1 hbnd hbnd (by omega) (by omega) (by omega))
                g2) g1) g
    case Half =>
      intro g
      exact foldl_map_fix _ (fun g o => (List.range' o ((rc.size - 1) - o - o)).foldl
          (fun g i => cycle2 (cycle2 g (face, o, i)
            (face, (rc.size - 1) - o, (rc.size - 1) - i))
            (face, (rc.size - 1) - i, o) (face, i, (rc.size - 1) - o)) g)
        (List.range (rc.size / 2))
        (fun o ho g1 => by
          rw [List.mem_range] at ho
          exact foldl_map_fix _ (fun g i => cycle2 (cycle2 g (face, o, i)
              (face, (rc.size - 1) - o, (rc.size - 1) - i))
              (face, (rc.size - 1) - i, o) (face, i, (rc.size - 1) - o))
            (List.range' o ((rc.size - 1) - o - o))
            (fun i hi g2 => by
              rw [List.mem_range'_1] at hi
              have hbnd : ringBound rc.size o i := by simp only [ringBound]; omega
              exact map_halfpair_eq _ hnd _ _ _ _
                (Multiset.mem_coe.mpr ((mem_allPositions rc.size face o i).mpr
                  ⟨by omega, by omega⟩))
                (Multiset.mem_coe.mpr ((mem_allPositions rc.size face ((rc.size - 1) - o)
                  ((rc.size - 1) - i)).mpr ⟨by omega, by omega⟩))
                (Multiset.mem_coe.mpr ((mem_allPositions rc.size face ((rc.size - 1) - i) o).mpr
                  ⟨by omega, by omega⟩))
                (Multiset.mem_coe.mpr ((mem_allPositions rc.size face i ((rc.size - 1) - o)).mpr
                  ⟨by omega, by omega⟩))
                (@gridPos_ne face rc.size o i o i 0 2 hbnd hbnd (by omega) (by omega) (by omega))
                (@gridPos_ne face rc.size o i o i 0 1 hbnd hbnd (by omega) (by omega) (by omega))
                (@gridPos_ne face rc.size o i o i 0 3 hbnd hbnd (by omega) (by omega) (by omega))
                (@gridPos_ne face rc.size o i o i 2 1 hbnd hbnd (by omega) (by omega) (by omega))
                (@gridPos_ne face rc.size o i o i 2 3 hbnd hbnd (by omega) (by omega) (by omega))
                (@gridPos_ne face rc.size o i o i 1 3 hbnd hbnd (by omega) (by omega) (by omega))
                g2) g1) g
  show Multiset.map ((rotate_face rc face m d).state) ↑(allPositions rc.size) =
    Multiset.map rc.state ↑(allPositions rc.size)
  rw [rotate_face_state, hborder]
  by_cases hd0 : d = 0
  · rw [if_pos hd0, hgrid]
  · rw [if_neg hd0]

theorem claim_C3_color_conservation_witness :
    1 < (RubiksCube.new 3).size ∧
    cubeColors (rotate_face (RubiksCube.new 3) .Up .Clockwise 1) =
      cubeColors (RubiksCube.new 3) :=
  ⟨by decide, claim_C3_color_conservation (RubiksCube.new 3) .Up .Clockwise 1 (by decide)⟩

/-- C8: from a solved 3×3×3 cube, the fixed 30-move clockwise depth-0
scramble produces exactly the literal fixture state of the test. -/
theorem claim_C8_scramble_fixture :
    ∀ (f : Face) (r c : Fin 3),
      scrambled3.state (f, r.val, c.val) =
        ((expected_faces.getD (faceIdx f) []).getD r.val []).getD c.val .White := by
  decide

/-- C9 as stated is false: the checkerboard pattern on a solved 5×5×5
cube changes facelet (row 0, col 1) of the Up face, which lies on the
outermost (depth 0) layer of the Up face (and of the Back face). -/
theorem claim_C9_checkerboard_counterexample :
    (checkerboard (RubiksCube.new 5)).state (.Up, 0, 1) ≠
      (RubiksCube.new 5).state (.Up, 0, 1) := by
  decide

/-- C9 amended: the checkerboard pattern on a solved 5×5×5 cube leaves
every facelet whose row and column indices are both even unchanged (in
particular the four corners and the center of every face); outermost-layer
facelets with an odd coordinate may change. -/
theorem claim_C9_checkerboard_amended :
    ∀ (f : Face) (r c : Fin 3),
      (checkerboard (RubiksCube.new 5)).state (f, 2 * r.val, 2 * c.val) =
        (RubiksCube.new 5).state (f, 2 * r.val, 2 * c.val) := by
  decide

/-! ### The checked embedding agrees with the total one on valid depths
and fails loudly on out-of-range depths. -/

theorem some_bind_eq {α β : Type} (a : α) (f : α → Option β) : (some a >>= f) = f a := rfl

theorem foldlM_eq_some {ι : Type} (stepq : CubeMap → ι → Option CubeMap)
    (step : CubeMap → ι → CubeMap) :
    ∀ (L : List ι), (∀ b ∈ L, ∀ g, stepq g b = some (step g b)) →
      ∀ g, L.foldlM stepq g = some (L.foldl step g) := by
  intro L
  induction L with
  | nil => intro _ g; rfl
  | cons b L ih =>
      intro h g
      rw [List.foldlM_cons, h b (List.mem_cons_self _ _) g, some_bind_eq,
        ih (fun a ha g2 => h a (List.mem_cons_of_mem _ ha) g2), List.foldl_cons]

theorem read?_ok (size : Nat) (g : CubeMap) (p : Pos)
    (h : p.2.1 < size ∧ p.2.2 < size) : read? size g p = some (g p) := by
  simp [read?, h]

theorem write?_ok (size : Nat) (g : CubeMap) (p : Pos) (v : Color)
    (h : p.2.1 < size ∧ p.2.2 < size) : write? size g p v = some (setc g p v) := by
  simp [write?, h]

theorem cycle2?_ok (size : Nat) (g : CubeMap) (pa pb : Pos)
    (ha : pa.2.1 < size ∧ pa.2.2 < size) (hb : pb.2.1 < size ∧ pb.2.2 < size) :
    cycle2? size g pa pb = some (cycle2 g pa pb) := by
  rw [cycle2?, read?_ok size g pa ha, some_bind_eq, read?_ok size g pb hb,
    some_bind_eq, write?_ok size g pa (g pb) ha, some_bind_eq,
    write?_ok size _ pb (g pa) hb]
  rfl

theorem cycle4?_ok (size : Nat) (g : CubeMap) (pa pb pc pd : Pos)
    (ha : pa.2.1 < size ∧ pa.2.2 < size) (hb : pb.2.1 < size ∧ pb.2.2 < size)
    (hc : pc.2.1 < size ∧ pc.2.2 < size) (hd : pd.2.1 < size ∧ pd.2.2 < size) :
    cycle4? size g pa pb pc pd = some (cycle4 g pa pb pc pd) := by
  rw [cycle4?, read?_ok size g pa ha, some_bind_eq, read?_ok size g pb hb,
    some_bind_eq, write?_ok size g pa (g pb) ha, some_bind_eq,
    read?_ok size _ pc hc, some_bind_eq, write?_ok size _ pb _ hb, some_bind_eq,
    read?_ok size _ pd hd, some_bind_eq, write?_ok size _ pc _ hc, some_bind_eq,
    write?_ok size _ pd _ hd]
  rfl

theorem position?_ok (corner : Corner) (i size depth : Nat) (hi : i < size)
    (hd : depth < size) :
    position? corner i size depth =
      some (position_based_off_corner_and_move_count corner i size depth) := by
  have h1 : 1 ≤ size := by omega
  have h2 : i ≤ size - 1 := by omega
  have h3 : depth ≤ size - 1 := by omega
  cases corner <;>
    simp [position?, position_based_off_corner_and_move_count, sub?, h1, h2, h3]

theorem rotate_grid?_ok (face : Face) (m : Movement) (size : Nat) (g : CubeMap)
    (hsz : 1 ≤ size) :
    rotate_grid? face m size g = some (rotate_grid face m size g) := by
  have h1 : sub? size 1 = some (size - 1) := by simp [sub?, hsz]
  cases m
  case Clockwise =>
    rw [rotate_grid?, h1, some_bind_eq]
    refine foldlM_eq_some _ _ (List.range (size / 2)) (fun o ho g1 => ?_) g
    rw [List.mem_range] at ho
    refine foldlM_eq_some _ _ (List.range' o _) (fun i hi g2 => ?_) g1
    rw [List.mem_range'_1] at hi
    exact cycle4?_ok size g2 _ _ _ _
      ⟨show o < size by omega, show i < size by omega⟩
      ⟨show size - 1 - i < size by omega, show o < size by omega⟩
      ⟨show size - 1 - o < size by omega, show size - 1 - i < size by omega⟩
      ⟨show i < size by omega, show size - 1 - o < size by omega⟩
  case CounterClockwise =>
    rw [rotate_grid?, h1, some_bind_eq]
    refine foldlM_eq_some _ _ (List.range (size / 2)) (fun o ho g1 => ?_) g
    rw [List.mem_range] at ho
    refine foldlM_eq_some _ _ (List.range' o _) (fun i hi g2 => ?_) g1
    rw [List.mem_range'_1] at hi
    exact cycle4?_ok size g2 _ _ _ _
      ⟨show o < size by omega, show i < size by omega⟩
      ⟨show i < size by omega, show size - 1 - o < size by omega⟩
      ⟨show size - 1 - o < size by omega, show size - 1 - i < size by omega⟩
      ⟨show size - 1 - i < size by omega, show o < size by omega⟩
  case Half =>
    rw [rotate_grid?, h1, some_bind_eq]
    refine foldlM_eq_some _ _ (List.range (size / 2)) (fun o ho g1 => ?_) g
    rw [List.mem_range] at ho
    refine foldlM_eq_some _ _ (List.range' o _) (fun i hi g2 => ?_) g1
    rw [List.mem_range'_1] at hi
    rw [cycle2?_ok size g2 _ _ ⟨show o < size by omega, show i < size by omega⟩
        ⟨show size - 1 - o < size by omega, show size - 1 - i < size by omega⟩,
      some_bind_eq,
      cycle2?_ok size _ _ _ ⟨show size - 1 - i < size by omega, show o < size by omega⟩
        ⟨show i < size by omega, show size - 1 - o < size by omega⟩]

theorem rotate_border?_ok (face : Face) (m : Movement) (size depth : Nat) (g : CubeMap)
    (hd : depth < size) :
    rotate_border? face m size depth g = some (rotate_border face m size depth g) := by
  cases m
  case Clockwise =>
    refine foldlM_eq_some _ _ (List.range size) (fun b hb g1 => ?_) g
    rw [List.mem_range] at hb
    show (do
      let p0 ← position? (sideAt face 0).corner b size depth
      let p1 ← position? (sideAt face 1).corner b size depth
      let p2 ← position? (sideAt face 2).corner b size depth
      let p3 ← position? (sideAt face 3).corner b size depth
      cycle4? size g1 ((sideAt face 0).face, p0) ((sideAt face 3).face, p3)
        ((sideAt face 2).face, p2) ((sideAt face 1).face, p1)) = _
    rw [position?_ok _ b size depth hb hd, some_bind_eq,
      position?_ok _ b size depth hb hd, some_bind_eq,
      position?_ok _ b size depth hb hd, some_bind_eq,
      position?_ok _ b size depth hb hd, some_bind_eq]
    exact cycle4?_ok size g1 _ _ _ _ (position_lt _ b size depth hb hd)
      (position_lt _ b size depth hb hd) (position_lt _ b size depth hb hd)
      (position_lt _ b size depth hb hd)
  case CounterClockwise =>
    refine foldlM_eq_some _ _ (List.range size) (fun b hb g1 => ?_) g
    rw [List.mem_range] at hb
    show (do
      let p0 ← position? (sideAt face 0).corner b size depth
      let p1 ← position? (sideAt face 1).corner b size depth
      let p2 ← position? (sideAt face 2).corner b size depth
      let p3 ← position? (sideAt face 3).corner b size depth
      cycle4? size g1 ((sideAt face 0).face, p0) ((sideAt face 1).face, p1)
        ((sideAt face 2).face, p2) ((sideAt face 3).face, p3)) = _
    rw [position?_ok _ b size depth hb hd, some_bind_eq,
      position?_ok _ b size depth hb hd, some_bind_eq,
      position?_ok _ b size depth hb hd, some_bind_eq,
      position?_ok _ b size depth hb hd, some_bind_eq]
    exact cycle4?_ok size g1 _ _ _ _ (position_lt _ b size depth hb hd)
      (position_lt _ b size depth hb hd) (position_lt _ b size depth hb hd)
      (position_lt _ b size depth hb hd)
  case Half =>
    refine foldlM_eq_some _ _ (List.range size) (fun b hb g1 => ?_) g
    rw [List.mem_range] at hb
    show (do
      let p0 ← position? (sideAt face 0).corner b size depth
      let p1 ← position? (sideAt face 1).corner b size depth
      let p2 ← position? (sideAt face 2).corner b size depth
      let p3 ← position? (sideAt face 3).corner b size depth
      let g2 ← cycle2? size g1 ((sideAt face 0).face, p0) ((sideAt face 2).face, p2)
      cycle2? size g2 ((sideAt face 1).face, p1) ((sideAt face 3).face, p3)) = _
    rw [position?_ok _ b size depth hb hd, some_bind_eq,
      position?_ok _ b size depth hb hd, some_bind_eq,
      position?_ok _ b size depth hb hd, some_bind_eq,
      position?_ok _ b size depth hb hd, some_bind_eq,
      cycle2?_ok size g1 _ _ (position_lt _ b size depth hb hd)
        (position_lt _ b size depth hb hd), some_bind_eq,
      cycle2?_ok size _ _ _ (position_lt _ b size depth hb hd)
        (position_lt _ b size depth hb hd)]
    rfl

theorem position?_oob (corner : Corner) (size d : Nat) (hsz : 1 ≤ size) (hd : size ≤ d) :
    position? corner 0 size d = none ∨
    ∃ p, position? corner 0 size d = some p ∧ ¬(p.1 < size ∧ p.2 < size) := by
  cases corner
  case TopLeft =>
    exact Or.inr ⟨(0, d), rfl, by omega⟩
  case TopRight =>
    refine Or.inr ⟨(d, size - 1), ?_, by omega⟩
    simp [position?, sub?, hsz]
  case BottomRight =>
    left
    have h2 : ¬(d ≤ size - 1) := by omega
    simp [position?, sub?, hsz, h2]
  case BottomLeft =>
    left
    have h2 : ¬(d ≤ size - 1) := by omega
    simp [position?, sub?, hsz, h2]

theorem cycle4?_fail (size : Nat) (g : CubeMap) (pa pb pc pd : Pos)
    (h : ¬(pa.2.1 < size ∧ pa.2.2 < size)) :
    cycle4? size g pa pb pc pd = none := by
  simp [cycle4?, read?, h]

theorem cycle2?_fail (size : Nat) (g : CubeMap) (pa pb : Pos)
    (h : ¬(pa.2.1 < size ∧ pa.2.2 < size)) :
    cycle2? size g pa pb = none := by
  simp [cycle2?, read?, h]

theorem range_eq_cons (size : Nat) (hsz : 1 ≤ size) :
    List.range size = 0 :: List.range' 1 (size - 1) := by
  obtain ⟨k, rfl⟩ : ∃ k, size = k + 1 := ⟨size - 1, by omega⟩
  rw [List.range_eq_range', List.range'_succ]
  simp

theorem getD_sideAt (face : Face) (k : Nat) :
    (get_sides face).getD k ⟨.Up, .TopLeft⟩ = sideAt face k := rfl

theorem rotate_border?_fail (face : Face) (m : Movement) (size d : Nat) (g : CubeMap)
    (hsz : 1 ≤ size) (hd : size ≤ d) :
    rotate_border? face m size d g = none := by
  cases m
  case Clockwise =>
    rw [rotate_border?, range_eq_cons size hsz, List.foldlM_cons]
    simp only [getD_sideAt]
    have hstep : (do
        let p0 ← position? (sideAt face 0).corner 0 size d
        let p1 ← position? (sideAt face 1).corner 0 size d
        let p2 ← position? (sideAt face 2).corner 0 size d
        let p3 ← position? (sideAt face 3).corner 0 size d
        cycle4? size g ((sideAt face 0).face, p0) ((sideAt face 3).face, p3)
          ((sideAt face 2).face, p2) ((sideAt face 1).face, p1)) = none := by
      rcases position?_oob (sideAt face 0).corner size d hsz hd with h0 | ⟨p0, h0, hb0⟩
      · simp [h0]
      rcases position?_oob (sideAt face 1).corner size d hsz hd with h1 | ⟨p1, h1, _⟩
      · simp [h0, h1]
      rcases position?_oob (sideAt face 2).corner size d hsz hd with h2 | ⟨p2, h2, _⟩
      · simp [h0, h1, h2]
      rcases position?_oob (sideAt face 3).corner size d hsz hd with h3 | ⟨p3, h3, _⟩
      · simp [h0, h1, h2, h3]
      rw [h0, some_bind_eq, h1, some_bind_eq, h2, some_bind_eq, h3, some_bind_eq]
      exact cycle4?_fail size g _ _ _ _ hb0
    rw [hstep]
    rfl
  case CounterClockwise =>
    rw [rotate_border?, range_eq_cons size hsz, List.foldlM_cons]
    simp only [getD_sideAt]
    have hstep : (do
        let p0 ← position? (sideAt face 0).corner 0 size d
        let p1 ← position? (sideAt face 1).corner 0 size d
        let p2 ← position? (sideAt face 2).corner 0 size d
        let p3 ← position? (sideAt face 3).corner 0 size d
        cycle4? size g ((sideAt face 0).face, p0) ((sideAt face 1).face, p1)
          ((sideAt face 2).face, p2) ((sideAt face 3).face, p3)) = none := by
      rcases position?_oob (sideAt face 0).corner size d hsz hd with h0 | ⟨p0, h0, hb0⟩
      · simp [h0]
      rcases position?_oob (sideAt face 1).corner size d hsz hd with h1 | ⟨p1, h1, _⟩
      · simp [h0, h1]
      rcases position?_oob (sideAt face 2).corner size d hsz hd with h2 | ⟨p2, h2, _⟩
      · simp [h0, h1, h2]
      rcases position?_oob (sideAt face 3).corner size d hsz hd with h3 | ⟨p3, h3, _⟩
      · simp [h0, h1, h2, h3]
      rw [h0, some_bind_eq, h1, some_bind_eq, h2, some_bind_eq, h3, some_bind_eq]
      exact cycle4?_fail size g _ _ _ _ hb0
    rw [hstep]
    rfl
  case Half =>
    rw [rotate_border?, range_eq_cons size hsz, List.foldlM_cons]
    simp only [getD_sideAt]
    have hstep : (do
        let p0 ← position? (sideAt face 0).corner 0 size d
        let p1 ← position? (sideAt face 1).corner 0 size d
        let p2 ← position? (sideAt face 2).corner 0 size d
        let p3 ← position? (sideAt face 3).corner 0 size d
        let g2 ← cycle2? size g ((sideAt face 0).face, p0) ((sideAt face 2).face, p2)
        cycle2? size g2 ((sideAt face 1).face, p1) ((sideAt face 3).face, p3)) = none := by
      rcases position?_oob (sideAt face 0).corner size d hsz hd with h0 | ⟨p0, h0, hb0⟩
      · simp [h0]
      rcases position?_oob (sideAt face 1).corner size d hsz hd with h1 | ⟨p1, h1, _⟩
      · simp [h0, h1]
      rcases position?_oob (sideAt face 2).corner size d hsz hd with h2 | ⟨p2, h2, _⟩
      · simp [h0, h1, h2]
      rcases position?_oob (sideAt face 3).corner size d hsz hd with h3 | ⟨p3, h3, _⟩
      · simp [h0, h1, h2, h3]
      rw [h0, some_bind_eq, h1, some_bind_eq, h2, some_bind_eq, h3, some_bind_eq,
        cycle2?_fail size g _ _ hb0]
      rfl
    rw [hstep]
    rfl

theorem rotate_face?_ok (rc : RubiksCube) (face : Face) (m : Movement) (d : Nat)
    (hd : d < rc.size) :
    rotate_face? rc face m d = some (rotate_face rc face m d) := by
  rw [rotate_face?]
  simp only [rotate_face]
  by_cases hd0 : d = 0
  · rw [if_pos hd0, rotate_grid?_ok face m rc.size rc.state (by omega), some_bind_eq,
      rotate_border?_ok face m rc.size d _ hd, some_bind_eq, if_pos hd0]
  · rw [if_neg hd0, some_bind_eq, rotate_border?_ok face m rc.size d _ hd, some_bind_eq,
      if_neg hd0]

theorem rotate_face?_fail (rc : RubiksCube) (face : Face) (m : Movement) (d : Nat)
    (hsz : 1 ≤ rc.size) (hd : rc.size ≤ d) :
    rotate_face? rc face m d = none := by
  have hd0 : d ≠ 0 := by omega
  rw [rotate_face?, if_neg hd0, some_bind_eq]
  simp only []
  rw [rotate_border?_fail face m rc.size d rc.state hsz hd]
  rfl

/-- C6: on a well-formed cube (size at least 1), the checked rotation
succeeds for every depth below the size, reproducing the total rotation,
and returns an error (the model of a panic) for every depth at or above
the size, rather than truncating or clamping it. -/
theorem claim_C6_depth_contract (rc : RubiksCube) (face : Face) (m : Movement) (d : Nat)
    (hsz : 1 ≤ rc.size) :
    (d < rc.size → rotate_face? rc face m d = some (rotate_face rc face m d)) ∧
    (rc.size ≤ d → rotate_face? rc face m d = none) :=
  ⟨fun hd => rotate_face?_ok rc face m d hd,
    fun hd => rotate_face?_fail rc face m d hsz hd⟩

theorem claim_C6_depth_contract_witness :
    1 ≤ (RubiksCube.new 2).size ∧
    ((5 < (RubiksCube.new 2).size →
        rotate_face? (RubiksCube.new 2) .Up .Clockwise 5 =
          some (rotate_face (RubiksCube.new 2) .Up .Clockwise 5)) ∧
      ((RubiksCube.new 2).size ≤ 5 →
        rotate_face? (RubiksCube.new 2) .Up .Clockwise 5 = none)) :=
  ⟨by decide, claim_C6_depth_contract (RubiksCube.new 2) .Up .Clockwise 5 (by decide)⟩
